import Mathlib

/-!
Verification of the terminal-emulator core (src/core/{utf8,parser,grid,handler}.rs,
src/shell_integration.rs, src/clipboard.rs, src/security.rs) against its
natural-language specification.

Shallow embedding conventions:
* Rust u8/u16/usize values are Lean Nat. Subtractions that the source guards
  (so they cannot underflow) are plain Nat subtraction; the two spots where the
  source can underflow a usize (release builds wrap mod 2^64) use wsub below.
* Rust String is List Char, byte buffers are List Nat.
* Vec indexing is modelled with List.set / List.getD; every access performed by
  the embedded code on reachable states is in bounds (this is part of what the
  invariant theorems establish).
* std::time::Instant cannot be embedded; ShellIntegration.command_start is
  modelled as the Bool is_some projection and durations as Option Unit.
-/

namespace TermCore

/-- 2^64, the usize modulus. -/
def USIZE : Nat := 18446744073709551616

/-- Wrapping usize subtraction (Rust release-build semantics), used only where
the source can actually underflow: the wide-char no-wrap column adjustment
(cols - 2 with cols = 1) and the DECSTBM default bottom (bottom - 1 when
rows as u16 is 0). Both operands are < 2^64 in all reachable states. -/
def wsub (a b : Nat) : Nat := (USIZE + a - b) % USIZE

/-- Unicode replacement character U+FFFD. -/
def replacementChar : Char := Char.ofNat 0xFFFD

/-! ## UTF-8 streaming decoder (src/core/utf8.rs) -/

/-- Streaming UTF-8 decoder state. The source stores buf : [u8;4] with a fill
count len; the list buf here models the filled prefix buf[..len]. -/
structure Utf8Decoder where
  buf : List Nat
  expected : Nat
  deriving DecidableEq, Repr

def Utf8Decoder.new : Utf8Decoder := { buf := [], expected := 0 }

/-- Decode the completed byte buffer exactly as str::from_utf8 does for a
buffer whose lead/continuation shape is already established: reject overlong
encodings, surrogates and values above 0x10FFFF, otherwise yield the scalar.
Invalid buffers produce the replacement character (the source's unwrap_or). -/
def decodeBuf (buf : List Nat) : Char :=
  match buf with
  | [b0] => Char.ofNat b0
  | [b0, b1] =>
      let cp := (b0 % 0x20) * 0x40 + b1 % 0x40
      if 0x80 ≤ cp then Char.ofNat cp else replacementChar
  | [b0, b1, b2] =>
      let cp := (b0 % 0x10) * 0x1000 + (b1 % 0x40) * 0x40 + b2 % 0x40
      if 0x800 ≤ cp ∧ ¬ (0xD800 ≤ cp ∧ cp ≤ 0xDFFF) then Char.ofNat cp
      else replacementChar
  | [b0, b1, b2, b3] =>
      let cp := (b0 % 8) * 0x40000 + (b1 % 0x40) * 0x1000 +
        (b2 % 0x40) * 0x40 + b3 % 0x40
      if 0x10000 ≤ cp ∧ cp ≤ 0x10FFFF then Char.ofNat cp else replacementChar
  | _ => replacementChar

/-- The expected == 0 branch of Utf8Decoder::feed: start of a new sequence. -/
def Utf8Decoder.feedStart (byte : Nat) : Option Char × Utf8Decoder :=
  if byte < 0x80 then
    (some (Char.ofNat byte), Utf8Decoder.new)
  else if byte &&& 0xE0 == 0xC0 then
    (none, { buf := [byte], expected := 2 })
  else if byte &&& 0xF0 == 0xE0 then
    (none, { buf := [byte], expected := 3 })
  else if byte &&& 0xF8 == 0xF0 then
    (none, { buf := [byte], expected := 4 })
  else
    (some replacementChar, Utf8Decoder.new)

/-- Utf8Decoder::feed. Returns the decoded char (if a sequence completed or an
error was signalled) and the successor state. On an invalid continuation the
source resets and re-feeds the byte only when byte ≥ 0x80, discarding that
inner call's output; bytes < 0x80 are dropped. -/
def Utf8Decoder.feed (d : Utf8Decoder) (byte : Nat) : Option Char × Utf8Decoder :=
  if d.expected == 0 then
    Utf8Decoder.feedStart byte
  else if byte &&& 0xC0 == 0x80 then
    let buf := d.buf ++ [byte]
    if buf.length == d.expected then
      (some (decodeBuf buf), Utf8Decoder.new)
    else
      (none, { d with buf := buf })
  else
    if byte ≥ 0x80 then
      (some replacementChar, (Utf8Decoder.feedStart byte).2)
    else
      (some replacementChar, Utf8Decoder.new)

def Utf8Decoder.is_pending (d : Utf8Decoder) : Bool := d.expected > 0

/-- char_width from src/core/utf8.rs: display width 0, 1 or 2. -/
def char_width (ch : Char) : Nat :=
  let cp := ch.toNat
  if cp ≤ 0x1f ∨ (0x7f ≤ cp ∧ cp ≤ 0x9f) then 0
  else if (0x0300 ≤ cp ∧ cp ≤ 0x036f) ∨ (0x0483 ≤ cp ∧ cp ≤ 0x0489) ∨
      (0x0591 ≤ cp ∧ cp ≤ 0x05bd) ∨ cp = 0x05bf ∨
      (0x05c1 ≤ cp ∧ cp ≤ 0x05c2) ∨ (0x05c4 ≤ cp ∧ cp ≤ 0x05c5) ∨ cp = 0x05c7 ∨
      (0x0610 ≤ cp ∧ cp ≤ 0x061a) ∨ (0x064b ≤ cp ∧ cp ≤ 0x065f) ∨ cp = 0x0670 ∨
      (0xfe00 ≤ cp ∧ cp ≤ 0xfe0f) ∨ (0x200b ≤ cp ∧ cp ≤ 0x200f) ∨
      (0x2028 ≤ cp ∧ cp ≤ 0x202e) ∨ (0x2060 ≤ cp ∧ cp ≤ 0x2064) ∨
      cp = 0xfeff then 0
  else if (0x1100 ≤ cp ∧ cp ≤ 0x115f) ∨ (0x2e80 ≤ cp ∧ cp ≤ 0x303e) ∨
      (0x3041 ≤ cp ∧ cp ≤ 0x33bf) ∨ (0x3400 ≤ cp ∧ cp ≤ 0x4dbf) ∨
      (0x4e00 ≤ cp ∧ cp ≤ 0xa4cf) ∨ (0xa960 ≤ cp ∧ cp ≤ 0xa97c) ∨
      (0xac00 ≤ cp ∧ cp ≤ 0xd7a3) ∨ (0xf900 ≤ cp ∧ cp ≤ 0xfaff) ∨
      (0xfe30 ≤ cp ∧ cp ≤ 0xfe6f) ∨ (0xff01 ≤ cp ∧ cp ≤ 0xff60) ∨
      (0xffe0 ≤ cp ∧ cp ≤ 0xffe6) ∨ (0x20000 ≤ cp ∧ cp ≤ 0x2fffd) ∨
      (0x30000 ≤ cp ∧ cp ≤ 0x3fffd) then 2
  else if (0x1f300 ≤ cp ∧ cp ≤ 0x1f9ff) ∨ (0x1fa00 ≤ cp ∧ cp ≤ 0x1fa6f) ∨
      (0x1fa70 ≤ cp ∧ cp ≤ 0x1faff) then 2
  else 1

/-! ## Grid store (src/core/grid.rs) -/

/-- 24-bit RGB color (three u8 components, kept as Nat < 256). -/
structure Color where
  r : Nat
  g : Nat
  b : Nat
  deriving DecidableEq, Repr

def Color.DEFAULT_FG : Color := { r := 204, g := 204, b := 204 }
def Color.DEFAULT_BG : Color := { r := 0, g := 0, b := 0 }

/-- Cell attribute bitset (bitflags over u8). grid.rs declares BOLD, ITALIC,
UNDERLINE, INVERSE and STRIKETHROUGH. -/
structure CellAttr where
  bits : Nat
  deriving DecidableEq, Repr

def CellAttr.empty : CellAttr := { bits := 0 }
def CellAttr.BOLD : CellAttr := { bits := 0x01 }
def CellAttr.ITALIC : CellAttr := { bits := 0x02 }
def CellAttr.UNDERLINE : CellAttr := { bits := 0x04 }
def CellAttr.INVERSE : CellAttr := { bits := 0x08 }
def CellAttr.STRIKETHROUGH : CellAttr := { bits := 0x10 }

/-- Modelled from the spec: handler.rs uses CellAttr::DIM (SGR 2/22) but the
bitflags declaration in grid.rs omits it; the spec lists DIM in the attribute
set, so it is given the next free bit. -/
def CellAttr.DIM : CellAttr := { bits := 0x20 }

/-- Modelled from the spec: handler.rs uses CellAttr::HIDDEN (SGR 8/28) but the
bitflags declaration in grid.rs omits it; the spec lists HIDDEN in the
attribute set, so it is given the next free bit. -/
def CellAttr.HIDDEN : CellAttr := { bits := 0x40 }

def CellAttr.insert (a f : CellAttr) : CellAttr := { bits := a.bits ||| f.bits }

def CellAttr.remove (a f : CellAttr) : CellAttr := { bits := a.bits &&& (0xFF ^^^ f.bits) }

def CellAttr.contains (a f : CellAttr) : Bool := a.bits &&& f.bits == f.bits

/-- One grid cell. -/
structure Cell where
  ch : Char
  attr : CellAttr
  fg : Color
  bg : Color
  deriving DecidableEq, Repr

def Cell.default : Cell :=
  { ch := ' ', attr := CellAttr.empty, fg := Color.DEFAULT_FG, bg := Color.DEFAULT_BG }

/-- Row-major index into the cell buffer, as in grid.rs (row * cols + col). -/
def cellGet (cells : List Cell) (cols row col : Nat) : Cell :=
  cells.getD (row * cols + col) Cell.default

def cellSet (cells : List Cell) (cols row col : Nat) (c : Cell) : List Cell :=
  cells.set (row * cols + col) c

/-- The row-shift loop of Grid::scroll_up / Grid::scroll_region_up:
for row in lo..hi, copy row into row-1 reading the current buffer
(the source mutates in place in the same order). -/
def shiftRowsUpCells (cols lo hi : Nat) (cells : List Cell) : List Cell :=
  (List.range' lo (hi - lo)).foldl (fun cs row =>
    (List.range cols).foldl (fun cs col =>
      cellSet cs cols (row - 1) col (cellGet cs cols row col)) cs) cells

/-- The copy loop of scroll_region_up: for row in top..bottom,
cells[row] = cells[row+1] (in increasing row order, as the source does). -/
def pullRowsUpCells (cols top bottom : Nat) (cells : List Cell) : List Cell :=
  (List.range' top (bottom - top)).foldl (fun cs row =>
    (List.range cols).foldl (fun cs col =>
      cellSet cs cols row col (cellGet cs cols (row + 1) col)) cs) cells

/-- The copy loop of scroll_region_down / insert_lines: for row in
(lo+1..=hi).rev(), cells[row] = cells[row-1]. -/
def pushRowsDownCells (cols lo hi : Nat) (cells : List Cell) : List Cell :=
  ((List.range' (lo + 1) (hi - lo)).reverse).foldl (fun cs row =>
    (List.range cols).foldl (fun cs col =>
      cellSet cs cols row col (cellGet cs cols (row - 1) col)) cs) cells

/-- Blank one full row. -/
def clearRowCells (cols row : Nat) (cells : List Cell) : List Cell :=
  (List.range cols).foldl (fun cs col => cellSet cs cols row col Cell.default) cells

/-- Grid of cells with cursor and scrollback (src/core/grid.rs). -/
structure Grid where
  cols : Nat
  rows : Nat
  cells : List Cell
  scrollback : List (List Cell)
  scrollback_max : Nat
  cursor_row : Nat
  cursor_col : Nat
  deriving DecidableEq, Repr

def Grid.new (cols rows : Nat) : Grid :=
  { cols := cols, rows := rows,
    cells := List.replicate (cols * rows) Cell.default,
    scrollback := [], scrollback_max := 10000,
    cursor_row := 0, cursor_col := 0 }

def Grid.cell (g : Grid) (row col : Nat) : Cell := cellGet g.cells g.cols row col

/-- Write one full cell (the handler's cell_mut uses always assign every
field, so a whole-cell write captures them exactly). -/
def Grid.setCell (g : Grid) (row col : Nat) (c : Cell) : Grid :=
  { g with cells := cellSet g.cells g.cols row col c }

/-- Grid::scroll_up (private helper of newline). -/
def Grid.scroll_up (g : Grid) : Grid :=
  let top_row := (List.range g.cols).map (fun c => g.cell 0 c)
  let sb := g.scrollback ++ [top_row]
  let sb := if sb.length > g.scrollback_max then sb.drop 1 else sb
  let cs := shiftRowsUpCells g.cols 1 g.rows g.cells
  let cs := clearRowCells g.cols (g.rows - 1) cs
  { g with scrollback := sb, cells := cs }

/-- Grid::newline. -/
def Grid.newline (g : Grid) : Grid :=
  let g :=
    if g.cursor_row + 1 ≥ g.rows then g.scroll_up
    else { g with cursor_row := g.cursor_row + 1 }
  { g with cursor_col := 0 }

/-- Grid::put_char. -/
def Grid.put_char (g : Grid) (ch : Char) (attr : CellAttr) (fg : Color) (bg : Color) :
    Grid :=
  let g :=
    if g.cursor_col ≥ g.cols then ({ g with cursor_col := 0 }).newline
    else g
  let g := g.setCell g.cursor_row g.cursor_col { ch := ch, attr := attr, fg := fg, bg := bg }
  { g with cursor_col := g.cursor_col + 1 }

/-- Grid::resize (no reflow; copy from top-left; clamp cursor). The cursor
clamps use wsub because rows/cols = 0 would underflow in the source. -/
def Grid.resize (g : Grid) (cols rows : Nat) : Grid :=
  let copy_rows := min g.rows rows
  let copy_cols := min g.cols cols
  let new_cells := (List.range copy_rows).foldl (fun cs r =>
    (List.range copy_cols).foldl (fun cs c =>
      cellSet cs cols r c (cellGet g.cells g.cols r c)) cs)
    (List.replicate (cols * rows) Cell.default)
  { g with cells := new_cells, cols := cols, rows := rows,
           cursor_row := min g.cursor_row (wsub rows 1),
           cursor_col := min g.cursor_col (wsub cols 1) }

/-- Grid::clear. -/
def Grid.clear (g : Grid) : Grid :=
  { g with cells := List.replicate g.cells.length Cell.default,
           cursor_row := 0, cursor_col := 0 }

/-- Grid::erase_line_right. -/
def Grid.erase_line_right (g : Grid) : Grid :=
  let row := g.cursor_row
  let cs := (List.range' g.cursor_col (g.cols - g.cursor_col)).foldl
    (fun cs col => cellSet cs g.cols row col Cell.default) g.cells
  { g with cells := cs }

/-- Grid::erase_line_left. -/
def Grid.erase_line_left (g : Grid) : Grid :=
  let row := g.cursor_row
  let cs := (List.range (min g.cursor_col (g.cols - 1) + 1)).foldl
    (fun cs col => cellSet cs g.cols row col Cell.default) g.cells
  { g with cells := cs }

/-- Grid::erase_line. -/
def Grid.erase_line (g : Grid) : Grid :=
  let row := g.cursor_row
  let cs := (List.range g.cols).foldl
    (fun cs col => cellSet cs g.cols row col Cell.default) g.cells
  { g with cells := cs }

/-- Grid::erase_below. -/
def Grid.erase_below (g : Grid) : Grid :=
  let g := g.erase_line_right
  let cs := (List.range' (g.cursor_row + 1) (g.rows - (g.cursor_row + 1))).foldl
    (fun cs row => clearRowCells g.cols row cs) g.cells
  { g with cells := cs }

/-- Grid::erase_above. -/
def Grid.erase_above (g : Grid) : Grid :=
  let cs := (List.range g.cursor_row).foldl
    (fun cs row => clearRowCells g.cols row cs) g.cells
  let g := { g with cells := cs }
  g.erase_line_left

/-- Grid::scroll_region_up. -/
def Grid.scroll_region_up (g : Grid) (top bottom : Nat) : Grid :=
  let g :=
    if top == 0 then
      let top_row := (List.range g.cols).map (fun c => g.cells.getD c Cell.default)
      let sb := g.scrollback ++ [top_row]
      let sb := if sb.length > g.scrollback_max then sb.drop 1 else sb
      { g with scrollback := sb }
    else g
  let cs := pullRowsUpCells g.cols top bottom g.cells
  { g with cells := clearRowCells g.cols bottom cs }

/-- Grid::scroll_region_down. -/
def Grid.scroll_region_down (g : Grid) (top bottom : Nat) : Grid :=
  let cs := pushRowsDownCells g.cols top bottom g.cells
  { g with cells := clearRowCells g.cols top cs }

/-- Grid::insert_lines (n-fold repetition of a single-row shift). -/
def Grid.insert_lines (g : Grid) (at_ n bottom : Nat) : Grid :=
  (List.range n).foldl (fun g _ =>
    if at_ ≤ bottom then
      let cs := pushRowsDownCells g.cols at_ bottom g.cells
      { g with cells := clearRowCells g.cols at_ cs }
    else g) g

/-- Grid::delete_lines. -/
def Grid.delete_lines (g : Grid) (at_ n bottom : Nat) : Grid :=
  (List.range n).foldl (fun g _ =>
    if at_ ≤ bottom then
      let cs := pullRowsUpCells g.cols at_ bottom g.cells
      { g with cells := clearRowCells g.cols bottom cs }
    else g) g

/-- Grid::delete_chars. -/
def Grid.delete_chars (g : Grid) (n : Nat) : Grid :=
  let row := g.cursor_row
  let col := g.cursor_col
  { g with cells := (List.range' col (g.cols - col)).foldl (fun cs c =>
      let src := if c + n < g.cols then cellGet cs g.cols row (c + n) else Cell.default
      cellSet cs g.cols row c src) g.cells }

/-- Grid::insert_chars. -/
def Grid.insert_chars (g : Grid) (n : Nat) : Grid :=
  let row := g.cursor_row
  let col := g.cursor_col
  { g with cells := ((List.range' col (g.cols - col)).reverse).foldl (fun cs c =>
      if c ≥ col + n then
        cellSet cs g.cols row c (cellGet cs g.cols row (c - n))
      else
        cellSet cs g.cols row c Cell.default) g.cells }

/-! ## String helpers

Rust String values are modelled as List Char; the helpers below model the
std operations the source uses on them. -/

/-- Continuation byte test (10xxxxxx). -/
def isContByte (b : Nat) : Bool := 0x80 ≤ b ∧ b ≤ 0xBF

/-- String::from_utf8_lossy, following the WHATWG "maximal subpart"
replacement policy used by the Rust standard library: each maximal prefix of
a well-formed sequence that cannot be completed is replaced by one U+FFFD,
and decoding resumes at the first unacceptable byte. -/
def utf8LossyF : Nat → List Nat → List Char
  | 0, _ => []
  | _, [] => []
  | fuel + 1, b :: rest =>
    if b < 0x80 then Char.ofNat b :: utf8LossyF fuel rest
    else if 0xC2 ≤ b ∧ b ≤ 0xDF then
      match rest with
      | b1 :: rest1 =>
        if isContByte b1 then
          Char.ofNat ((b - 0xC0) * 0x40 + (b1 - 0x80)) :: utf8LossyF fuel rest1
        else replacementChar :: utf8LossyF fuel (b1 :: rest1)
      | [] => [replacementChar]
    else if 0xE0 ≤ b ∧ b ≤ 0xEF then
      match rest with
      | b1 :: rest1 =>
        let okSecond :=
          if b = 0xE0 then 0xA0 ≤ b1 ∧ b1 ≤ 0xBF
          else if b = 0xED then 0x80 ≤ b1 ∧ b1 ≤ 0x9F
          else isContByte b1
        if okSecond then
          match rest1 with
          | b2 :: rest2 =>
            if isContByte b2 then
              Char.ofNat ((b - 0xE0) * 0x1000 + (b1 - 0x80) * 0x40 + (b2 - 0x80)) ::
                utf8LossyF fuel rest2
            else replacementChar :: utf8LossyF fuel (b2 :: rest2)
          | [] => [replacementChar]
        else replacementChar :: utf8LossyF fuel (b1 :: rest1)
      | [] => [replacementChar]
    else if 0xF0 ≤ b ∧ b ≤ 0xF4 then
      match rest with
      | b1 :: rest1 =>
        let okSecond :=
          if b = 0xF0 then 0x90 ≤ b1 ∧ b1 ≤ 0xBF
          else if b = 0xF4 then 0x80 ≤ b1 ∧ b1 ≤ 0x8F
          else isContByte b1
        if okSecond then
          match rest1 with
          | b2 :: rest2 =>
            if isContByte b2 then
              match rest2 with
              | b3 :: rest3 =>
                if isContByte b3 then
                  Char.ofNat ((b - 0xF0) * 0x40000 + (b1 - 0x80) * 0x1000 +
                    (b2 - 0x80) * 0x40 + (b3 - 0x80)) :: utf8LossyF fuel rest3
                else replacementChar :: utf8LossyF fuel (b3 :: rest3)
              | [] => [replacementChar]
            else replacementChar :: utf8LossyF fuel (b2 :: rest2)
          | [] => [replacementChar]
        else replacementChar :: utf8LossyF fuel (b1 :: rest1)
      | [] => [replacementChar]
    else replacementChar :: utf8LossyF fuel rest

/-- String::from_utf8_lossy. Every recursive step of utf8LossyF consumes at
least one byte, so fuel = length always suffices; the fuel argument only
makes the recursion structural (kernel-reducible). -/
def utf8Lossy (bs : List Nat) : List Char := utf8LossyF bs.length bs

/-- str::strip_prefix on char lists. -/
def chopPre (pre s : List Char) : Option (List Char) :=
  match pre, s with
  | [], s => some s
  | _ :: _, [] => none
  | p :: ps, c :: cs => if p = c then chopPre ps cs else none

/-- str::split_once on char lists: split at the first occurrence of sep. -/
def splitOnce (s : List Char) (sep : Char) : Option (List Char × List Char) :=
  match s with
  | [] => none
  | c :: cs =>
    if c = sep then some ([], cs)
    else (splitOnce cs sep).map (fun p => (c :: p.1, p.2))

/-- str::parse::<i32>: optional sign, at least one digit, nothing else,
result within i32 range. -/
def parseI32 (s : List Char) : Option Int :=
  let core : Option (Bool × List Char) :=
    match s with
    | '+' :: rest => some (false, rest)
    | '-' :: rest => some (true, rest)
    | rest => some (false, rest)
  match core with
  | some (neg, ds) =>
    if ds = [] ∨ ¬ ds.all (fun c => c.isDigit) then none
    else
      let v : Nat := ds.foldl (fun a c => a * 10 + (c.toNat - 48)) 0
      let i : Int := if neg then -(v : Int) else (v : Int)
      if -2147483648 ≤ i ∧ i ≤ 2147483647 then some i else none
  | none => none

/-- Decimal byte representation of a number, as produced by format!. -/
def decBytes (n : Nat) : List Nat := (Nat.toDigits 10 n).map Char.toNat

/-- Convenience: ASCII bytes of a char list (used to state theorems about
feeding concrete text). -/
def asciiBytes (s : List Char) : List Nat := s.map Char.toNat

/-! ## VT parser (src/core/parser.rs) -/

/-- Parser states (Paul Williams' state machine). -/
inductive PState where
  | Ground | Escape | EscapeIntermediate
  | CsiEntry | CsiParam | CsiIntermediate | CsiIgnore
  | OscString
  | DcsEntry | DcsParam | DcsIntermediate | DcsPassthrough | DcsIgnore
  | SosPmApcString
  deriving DecidableEq, Repr

/-- Semantic actions emitted by the parser. -/
inductive Action where
  | Print (ch : Char)
  | Execute (byte : Nat)
  | CsiDispatch (final_byte : Nat) (params : List Nat) (intermediates : List Nat)
  | EscDispatch (final_byte : Nat) (intermediates : List Nat)
  | OscDispatch (data : List Nat)
  | NoAction
  deriving DecidableEq, Repr

/-- Parser state: params accumulate saturating u16 values. -/
structure VtParser where
  state : PState
  params : List Nat
  current_param : Nat
  intermediates : List Nat
  osc_data : List Nat
  deriving DecidableEq, Repr

def VtParser.new : VtParser :=
  { state := .Ground, params := [], current_param := 0,
    intermediates := [], osc_data := [] }

/-- VtParser::clear. -/
def VtParser.clear (p : VtParser) : VtParser :=
  { p with params := [], current_param := 0, intermediates := [], osc_data := [] }

/-- Saturating u16 accumulation of a decimal digit (the source uses
saturating_mul / saturating_add on u16). -/
def satAccum (cur d : Nat) : Nat := min (min (cur * 10) 65535 + d) 65535

/-- VtParser::ground. -/
def VtParser.ground (p : VtParser) (byte : Nat) : Action × VtParser :=
  if byte ≤ 0x1f then (.Execute byte, p)
  else if 0x20 ≤ byte ∧ byte ≤ 0x7e then (.Print (Char.ofNat byte), p)
  else if byte = 0x7f then (.NoAction, p)
  else (.Print replacementChar, p)

/-- VtParser::escape. -/
def VtParser.escape (p : VtParser) (byte : Nat) : Action × VtParser :=
  if 0x20 ≤ byte ∧ byte ≤ 0x2f then
    (.NoAction, { p with intermediates := p.intermediates ++ [byte],
                         state := .EscapeIntermediate })
  else if byte = 0x5b then
    (.NoAction, { p.clear with state := .CsiEntry })
  else if byte = 0x5d then
    (.NoAction, { p with osc_data := [], state := .OscString })
  else if 0x30 ≤ byte ∧ byte ≤ 0x7e then
    (.EscDispatch byte p.intermediates, { p with state := .Ground })
  else (.NoAction, p)

/-- VtParser::escape_intermediate. -/
def VtParser.escape_intermediate (p : VtParser) (byte : Nat) : Action × VtParser :=
  if 0x20 ≤ byte ∧ byte ≤ 0x2f then
    (.NoAction, { p with intermediates := p.intermediates ++ [byte] })
  else if 0x30 ≤ byte ∧ byte ≤ 0x7e then
    (.EscDispatch byte p.intermediates, { p with state := .Ground })
  else (.NoAction, p)

/-- VtParser::csi_entry. -/
def VtParser.csi_entry (p : VtParser) (byte : Nat) : Action × VtParser :=
  if 0x30 ≤ byte ∧ byte ≤ 0x39 then
    (.NoAction, { p with current_param := byte - 0x30, state := .CsiParam })
  else if byte = 0x3b then
    (.NoAction, { p with params := p.params ++ [0], state := .CsiParam })
  else if 0x3c ≤ byte ∧ byte ≤ 0x3f then
    (.NoAction, { p with intermediates := p.intermediates ++ [byte],
                         state := .CsiParam })
  else if 0x20 ≤ byte ∧ byte ≤ 0x2f then
    (.NoAction, { p with intermediates := p.intermediates ++ [byte],
                         state := .CsiIntermediate })
  else if 0x40 ≤ byte ∧ byte ≤ 0x7e then
    (.CsiDispatch byte p.params p.intermediates, { p with state := .Ground })
  else (.NoAction, p)

/-- VtParser::csi_param. -/
def VtParser.csi_param (p : VtParser) (byte : Nat) : Action × VtParser :=
  if 0x30 ≤ byte ∧ byte ≤ 0x39 then
    (.NoAction, { p with current_param := satAccum p.current_param (byte - 0x30) })
  else if byte = 0x3b then
    (.NoAction, { p with params := p.params ++ [p.current_param], current_param := 0 })
  else if 0x20 ≤ byte ∧ byte ≤ 0x2f then
    (.NoAction, { p with params := p.params ++ [p.current_param],
                         intermediates := p.intermediates ++ [byte],
                         state := .CsiIntermediate })
  else if 0x40 ≤ byte ∧ byte ≤ 0x7e then
    (.CsiDispatch byte (p.params ++ [p.current_param]) p.intermediates,
     { p with params := p.params ++ [p.current_param], state := .Ground })
  else (.NoAction, { p with state := .CsiIgnore })

/-- VtParser::csi_intermediate. -/
def VtParser.csi_intermediate (p : VtParser) (byte : Nat) : Action × VtParser :=
  if 0x20 ≤ byte ∧ byte ≤ 0x2f then
    (.NoAction, { p with intermediates := p.intermediates ++ [byte] })
  else if 0x40 ≤ byte ∧ byte ≤ 0x7e then
    (.CsiDispatch byte p.params p.intermediates, { p with state := .Ground })
  else (.NoAction, { p with state := .CsiIgnore })

/-- VtParser::csi_ignore. -/
def VtParser.csi_ignore (p : VtParser) (byte : Nat) : Action × VtParser :=
  if 0x40 ≤ byte ∧ byte ≤ 0x7e then (.NoAction, { p with state := .Ground })
  else (.NoAction, p)

/-- VtParser::osc_string. -/
def VtParser.osc_string (p : VtParser) (byte : Nat) : Action × VtParser :=
  if byte = 0x07 then
    (.OscDispatch p.osc_data, { p with state := .Ground })
  else if byte = 0x9c then
    (.OscDispatch p.osc_data, { p with state := .Ground })
  else
    (.NoAction, { p with osc_data := p.osc_data ++ [byte] })

/-- VtParser::advance: anywhere transitions first, then the per-state table. -/
def VtParser.advance (p : VtParser) (byte : Nat) : Action × VtParser :=
  if byte = 0x18 ∨ byte = 0x1a then
    (.Execute byte, { p with state := .Ground })
  else if byte = 0x1b then
    (.NoAction, { p.clear with state := .Escape })
  else
    match p.state with
    | .Ground => p.ground byte
    | .Escape => p.escape byte
    | .EscapeIntermediate => p.escape_intermediate byte
    | .CsiEntry => p.csi_entry byte
    | .CsiParam => p.csi_param byte
    | .CsiIntermediate => p.csi_intermediate byte
    | .CsiIgnore => p.csi_ignore byte
    | .OscString => p.osc_string byte
    | _ => (.NoAction, p)

/-! ## Shell integration (src/shell_integration.rs) -/

/-- A completed command record. Durations are wall-clock values that cannot be
embedded; they are modelled as Option Unit (is_some structure preserved). -/
structure CommandRegion where
  prompt_row : Nat
  command_row : Nat
  output_start_row : Nat
  output_end_row : Option Nat
  command_text : List Char
  exit_code : Option Int
  duration : Option Unit
  working_dir : List Char
  deriving DecidableEq, Repr

inductive ShellState where
  | Idle | Prompt | Command | Output
  deriving DecidableEq, Repr

/-- ShellIntegration state. command_start models the is_some projection of the
source's Option of Instant. -/
structure ShellIntegration where
  state : ShellState
  commands : List CommandRegion
  current_prompt_row : Nat
  current_command_row : Nat
  current_output_row : Nat
  current_command : List Char
  command_start : Bool
  working_dir : List Char
  max_history : Nat
  deriving DecidableEq, Repr

def ShellIntegration.new : ShellIntegration :=
  { state := .Idle, commands := [], current_prompt_row := 0,
    current_command_row := 0, current_output_row := 0, current_command := [],
    command_start := false, working_dir := [], max_history := 1000 }

/-- ShellIntegration::handle_osc133. -/
def ShellIntegration.handle_osc133 (si : ShellIntegration) (param : List Char)
    (cursor_row : Nat) : ShellIntegration :=
  match param.head? with
  | some 'A' => { si with state := .Prompt, current_prompt_row := cursor_row }
  | some 'B' => { si with state := .Command, current_command_row := cursor_row,
                          command_start := true }
  | some 'C' => { si with state := .Output, current_output_row := cursor_row }
  | some 'D' =>
    let exit_code := (chopPre ['D', ';'] param).bind parseI32
    let duration : Option Unit := if si.command_start then some () else none
    let region : CommandRegion :=
      { prompt_row := si.current_prompt_row,
        command_row := si.current_command_row,
        output_start_row := si.current_output_row,
        output_end_row := some cursor_row,
        command_text := si.current_command,
        exit_code := exit_code,
        duration := duration,
        working_dir := si.working_dir }
    let cmds := si.commands ++ [region]
    let cmds := if cmds.length > si.max_history then cmds.drop 1 else cmds
    { si with commands := cmds, state := .Idle, current_command := [],
              command_start := false }
  | _ => si

/-- ShellIntegration::handle_osc7: strip file:// then the hostname segment. -/
def ShellIntegration.handle_osc7 (si : ShellIntegration) (data : List Char) :
    ShellIntegration :=
  match chopPre ['f', 'i', 'l', 'e', ':', '/', '/'] data with
  | some path =>
    match splitOnce path '/' with
    | some (_, aft) => { si with working_dir := '/' :: aft }
    | none => si
  | none => si

/-- ShellIntegration::prev_prompt: reverse search for the first record whose
prompt_row is strictly below current_row. -/
def ShellIntegration.prev_prompt (si : ShellIntegration) (current_row : Nat) :
    Option Nat :=
  (si.commands.reverse.find? (fun c => c.prompt_row < current_row)).map
    (fun c => c.prompt_row)

/-- ShellIntegration::next_prompt: forward search for the first record whose
prompt_row is strictly above current_row. -/
def ShellIntegration.next_prompt (si : ShellIntegration) (current_row : Nat) :
    Option Nat :=
  (si.commands.find? (fun c => c.prompt_row > current_row)).map
    (fun c => c.prompt_row)

/-- ShellIntegration::last_exit_code. -/
def ShellIntegration.last_exit_code (si : ShellIntegration) : Option Int :=
  si.commands.getLast?.bind (fun c => c.exit_code)

/-! ## Clipboard helpers (src/clipboard.rs) -/

/-- The base64 alphabet position of a byte, via the source's table lookup. -/
def b64Val (b : Nat) : Option Nat :=
  (("ABCDEFGHIJKLMNOPQRSTUVWXYZabcdefghijklmnopqrstuvwxyz0123456789+/".toList.map
    Char.toNat).indexOf? b).map (fun i => i)

/-- Strict UTF-8 validation + decode (String::from_utf8), expressed through
the lossy decoder: a buffer is valid iff lossy decoding re-encodes to it, in
which case the lossy result is the exact decode. Validity is checked by
re-encoding. -/
def utf8Encode (c : Char) : List Nat :=
  let cp := c.toNat
  if cp < 0x80 then [cp]
  else if cp < 0x800 then [0xC0 + cp / 0x40, 0x80 + cp % 0x40]
  else if cp < 0x10000 then
    [0xE0 + cp / 0x1000, 0x80 + (cp / 0x40) % 0x40, 0x80 + cp % 0x40]
  else
    [0xF0 + cp / 0x40000, 0x80 + (cp / 0x1000) % 0x40,
     0x80 + (cp / 0x40) % 0x40, 0x80 + cp % 0x40]

def utf8Strict (bs : List Nat) : Option (List Char) :=
  let cs := utf8Lossy bs
  if (cs.map utf8Encode).flatten = bs then some cs else none

/-- clipboard::base64_decode: 6-bit accumulator, skipping '=', CR and LF;
any other byte outside the table aborts; the byte buffer must be UTF-8. -/
def base64Loop (input : List Nat) (acc bits : Nat) (buf : List Nat) :
    Option (List Nat) :=
  match input with
  | [] => some buf
  | b :: rest =>
    if b = 61 ∨ b = 10 ∨ b = 13 then base64Loop rest acc bits buf
    else match b64Val b with
      | none => none
      | some v =>
        let acc := acc * 64 + v
        let bits := bits + 6
        if bits ≥ 8 then
          let bits := bits - 8
          base64Loop rest (acc % 2 ^ bits) bits (buf ++ [acc / 2 ^ bits % 256])
        else base64Loop rest acc bits buf

def base64_decode (input : List Char) : Option (List Char) :=
  (base64Loop (input.map Char.toNat) 0 0 []).bind utf8Strict

/-- clipboard::decode_osc52_set. -/
def decode_osc52_set (data : List Char) : Option (List Char) :=
  match chopPre ['5', '2', ';'] data with
  | none => none
  | some rest =>
    match splitOnce rest ';' with
    | none => none
    | some (_target, b64) =>
      if b64 = ['?'] then none
      else base64_decode b64

/-! ## Security helpers (src/security.rs) -/

/-- security::sanitize_osc: lossy decode, strip control chars (except TAB),
cap at 4096 chars. This function exists in the repository but has no callers
outside its own tests; in particular osc_dispatch does not use it. -/
def sanitize_osc (data : List Nat) : List Char :=
  ((utf8Lossy data).filter (fun c => ¬ isControlChar c ∨ c = '\t')).take 4096
  where isControlChar (c : Char) : Bool :=
    c.toNat < 0x20 ∨ c.toNat = 0x7f ∨ (0x80 ≤ c.toNat ∧ c.toNat ≤ 0x9f)

/-! ## Terminal handler (src/core/handler.rs) -/

inductive MouseMode where
  | Off | X10 | Normal | Button | Any
  deriving DecidableEq, Repr

inductive MouseEncoding where
  | X10 | Sgr
  deriving DecidableEq, Repr

/-- The 16 standard ANSI colors. -/
def ANSI_COLORS : List Color :=
  [{ r := 0, g := 0, b := 0 }, { r := 205, g := 49, b := 49 },
   { r := 13, g := 188, b := 121 }, { r := 229, g := 229, b := 16 },
   { r := 36, g := 114, b := 200 }, { r := 188, g := 63, b := 188 },
   { r := 17, g := 168, b := 205 }, { r := 204, g := 204, b := 204 },
   { r := 102, g := 102, b := 102 }, { r := 241, g := 76, b := 76 },
   { r := 35, g := 209, b := 139 }, { r := 245, g := 245, b := 67 },
   { r := 59, g := 142, b := 234 }, { r := 214, g := 112, b := 214 },
   { r := 41, g := 184, b := 219 }, { r := 242, g := 242, b := 242 }]

/-- ANSI_COLORS[i]; every use in the source has i < 16. -/
def ansiColor (i : Nat) : Color := ANSI_COLORS.getD i Color.DEFAULT_FG

/-- Terminal state (struct Terminal in handler.rs). -/
structure Terminal where
  grid : Grid
  utf8 : Utf8Decoder
  attr : CellAttr
  fg : Color
  bg : Color
  saved_cursor : Nat × Nat
  saved_attr : CellAttr
  saved_fg : Color
  saved_bg : Color
  alt_grid : Option Grid
  tab_stops : List Bool
  origin_mode : Bool
  auto_wrap : Bool
  scroll_top : Nat
  scroll_bottom : Nat
  title : List Char
  write_back : List Nat
  cursor_keys_app : Bool
  cursor_visible : Bool
  bracketed_paste : Bool
  mouse_mode : MouseMode
  mouse_encoding : MouseEncoding
  keypad_app : Bool
  osc7_cwd : Option (List Char)
  osc133_data : Option (List Char)
  osc52_data : Option (List Char)
  shell : ShellIntegration
  deriving DecidableEq, Repr

/-- Tab stops built by Terminal::new and Terminal::resize: vec![false; cols]
then every 8th column set. -/
def defaultTabStops (cols : Nat) : List Bool :=
  ((List.range cols).filter (fun i => i % 8 == 0)).foldl
    (fun ts i => ts.set i true) (List.replicate cols false)

/-- Terminal::new. -/
def Terminal.new (cols rows : Nat) : Terminal :=
  { grid := Grid.new cols rows,
    utf8 := Utf8Decoder.new,
    attr := CellAttr.empty,
    fg := Color.DEFAULT_FG,
    bg := Color.DEFAULT_BG,
    saved_cursor := (0, 0),
    saved_attr := CellAttr.empty,
    saved_fg := Color.DEFAULT_FG,
    saved_bg := Color.DEFAULT_BG,
    alt_grid := none,
    tab_stops := defaultTabStops cols,
    origin_mode := false,
    auto_wrap := true,
    scroll_top := 0,
    scroll_bottom := rows - 1,
    title := [],
    write_back := [],
    cursor_keys_app := false,
    cursor_visible := true,
    bracketed_paste := false,
    mouse_mode := .Off,
    mouse_encoding := .X10,
    keypad_app := false,
    osc7_cwd := none,
    osc133_data := none,
    osc52_data := none,
    shell := ShellIntegration.new }

/-- fn param: params.get(idx).copied().filter(v != 0).unwrap_or(default). -/
def paramAt (params : List Nat) (idx default_ : Nat) : Nat :=
  match params.get? idx with
  | some v => if v ≠ 0 then v else default_
  | none => default_

/-- Tab-stop search used by HT and CHT: first set stop strictly after col,
defaulting to cols - 1. -/
def findNextStop (stops : List Bool) (col cols : Nat) : Nat :=
  match (stops.enum.drop (col + 1)).find? (fun e => e.2) with
  | some e => e.1
  | none => cols - 1

/-- Tab-stop search used by CBT: iterate in reverse, skip len - col entries
(i.e. restrict to indices below col), defaulting to 0. -/
def findPrevStop (stops : List Bool) (col : Nat) : Nat :=
  match (stops.enum.reverse.drop (stops.length - col)).find? (fun e => e.2) with
  | some e => e.1
  | none => 0

/-- Terminal::index. -/
def Terminal.index (t : Terminal) : Terminal :=
  if t.grid.cursor_row = t.scroll_bottom then
    { t with grid := t.grid.scroll_region_up t.scroll_top t.scroll_bottom }
  else if t.grid.cursor_row < t.grid.rows - 1 then
    { t with grid := { t.grid with cursor_row := t.grid.cursor_row + 1 } }
  else t

/-- Terminal::reverse_index. -/
def Terminal.reverse_index (t : Terminal) : Terminal :=
  if t.grid.cursor_row = t.scroll_top then
    { t with grid := t.grid.scroll_region_down t.scroll_top t.scroll_bottom }
  else if t.grid.cursor_row > 0 then
    { t with grid := { t.grid with cursor_row := t.grid.cursor_row - 1 } }
  else t

/-- Terminal::print, auto-wrap block (handler.rs 168-176): cursor at or past
the right margin either wraps (column 0 plus index) or clamps to cols - 1. -/
def Terminal.printWrapAdjust (t : Terminal) (cols : Nat) : Terminal :=
  if t.grid.cursor_col ≥ cols then
    if t.auto_wrap then ({ t with grid := { t.grid with cursor_col := 0 } }).index
    else { t with grid := { t.grid with cursor_col := cols - 1 } }
  else t

/-- Terminal::print, wide-char room check (handler.rs 178-188). The no-wrap
arm cols - 2 is wsub because cols = 1 underflows in the source (put_char's
own bound check then recovers, as in a release build). -/
def Terminal.printWideRoom (t : Terminal) (width cols : Nat) : Terminal :=
  if width = 2 ∧ t.grid.cursor_col + 1 ≥ cols then
    if t.auto_wrap then
      let t := { t with grid := t.grid.put_char ' ' t.attr t.fg t.bg }
      ({ t with grid := { t.grid with cursor_col := 0 } }).index
    else { t with grid := { t.grid with cursor_col := wsub cols 2 } }
  else t

/-- Terminal::print, wide sentinel cell (handler.rs 192-200). -/
def Terminal.printWideSentinel (t : Terminal) (width cols : Nat) : Terminal :=
  if width = 2 ∧ t.grid.cursor_col < cols then
    let g := t.grid.setCell t.grid.cursor_row t.grid.cursor_col
      { ch := Char.ofNat 0, attr := t.attr, fg := t.fg, bg := t.bg }
    { t with grid := { g with cursor_col := g.cursor_col + 1 } }
  else t

/-- Terminal::print, final clamp when auto-wrap is off (handler.rs 202-205). -/
def Terminal.printClamp (t : Terminal) (cols : Nat) : Terminal :=
  if t.auto_wrap = false ∧ t.grid.cursor_col ≥ cols then
    { t with grid := { t.grid with cursor_col := cols - 1 } }
  else t

/-- Terminal::print: the sequential blocks of the source, in order (cols is
read once at entry, as in the source). -/
def Terminal.print (t : Terminal) (ch : Char) : Terminal :=
  let width := char_width ch
  if width = 0 then t
  else
    let cols := t.grid.cols
    let t := t.printWrapAdjust cols
    let t := t.printWideRoom width cols
    let t := { t with grid := t.grid.put_char ch t.attr t.fg t.bg }
    let t := t.printWideSentinel width cols
    t.printClamp cols

/-- Terminal::execute (C0 controls). -/
def Terminal.execute (t : Terminal) (byte : Nat) : Terminal :=
  if byte = 0x07 then t
  else if byte = 0x08 then
    if t.grid.cursor_col > 0 then
      { t with grid := { t.grid with cursor_col := t.grid.cursor_col - 1 } }
    else t
  else if byte = 0x09 then
    let next := findNextStop t.tab_stops t.grid.cursor_col t.grid.cols
    { t with grid := { t.grid with cursor_col := next } }
  else if byte = 0x0a ∨ byte = 0x0b ∨ byte = 0x0c then t.index
  else if byte = 0x0d then { t with grid := { t.grid with cursor_col := 0 } }
  else t

/-- SGR working state (the attr/fg/bg fields that handle_sgr mutates). -/
structure SgrState where
  attr : CellAttr
  fg : Color
  bg : Color
  deriving DecidableEq, Repr

/-- fn color_from_256. -/
def color_from_256 (idx : Nat) : Color :=
  if idx ≤ 15 then ansiColor idx
  else if idx ≤ 231 then
    let idx := idx - 16
    let r := (idx / 36) % 6
    let g := (idx / 6) % 6
    let b := idx % 6
    let to_val := fun v => if v = 0 then 0 else 55 + 40 * v
    { r := to_val r, g := to_val g, b := to_val b }
  else if idx ≤ 255 then
    let v := 8 + 10 * (idx - 232)
    { r := v, g := v, b := v }
  else Color.DEFAULT_FG

/-- fn parse_extended_color; truecolor components are cast u16 -> u8 (% 256). -/
def parse_extended_color (params : List Nat) (start : Nat) : Option (Color × Nat) :=
  match params.get? start with
  | none => none
  | some 5 => (params.get? (start + 1)).map (fun idx => (color_from_256 idx, 2))
  | some 2 =>
    match params.get? (start + 1), params.get? (start + 2), params.get? (start + 3) with
    | some r, some g, some b => some ({ r := r % 256, g := g % 256, b := b % 256 }, 4)
    | _, _, _ => none
  | some _ => none

def sgrResetState : SgrState :=
  { attr := CellAttr.empty, fg := Color.DEFAULT_FG, bg := Color.DEFAULT_BG }

/-- The while-loop body of handle_sgr: process params[i], return the new
state and the number of extra params consumed (the source's i += skip). -/
def sgrStep (params : List Nat) (i : Nat) (s : SgrState) (p : Nat) : SgrState × Nat :=
  if p = 0 then (sgrResetState, 0)
  else if p = 1 then ({ s with attr := s.attr.insert CellAttr.BOLD }, 0)
  else if p = 2 then ({ s with attr := s.attr.insert CellAttr.DIM }, 0)
  else if p = 3 then ({ s with attr := s.attr.insert CellAttr.ITALIC }, 0)
  else if p = 4 then ({ s with attr := s.attr.insert CellAttr.UNDERLINE }, 0)
  else if p = 7 then ({ s with attr := s.attr.insert CellAttr.INVERSE }, 0)
  else if p = 8 then ({ s with attr := s.attr.insert CellAttr.HIDDEN }, 0)
  else if p = 9 then ({ s with attr := s.attr.insert CellAttr.STRIKETHROUGH }, 0)
  else if p = 22 then
    ({ s with attr := (s.attr.remove CellAttr.BOLD).remove CellAttr.DIM }, 0)
  else if p = 23 then ({ s with attr := s.attr.remove CellAttr.ITALIC }, 0)
  else if p = 24 then ({ s with attr := s.attr.remove CellAttr.UNDERLINE }, 0)
  else if p = 27 then ({ s with attr := s.attr.remove CellAttr.INVERSE }, 0)
  else if p = 28 then ({ s with attr := s.attr.remove CellAttr.HIDDEN }, 0)
  else if p = 29 then ({ s with attr := s.attr.remove CellAttr.STRIKETHROUGH }, 0)
  else if 30 ≤ p ∧ p ≤ 37 then ({ s with fg := ansiColor (p - 30) }, 0)
  else if p = 38 then
    match parse_extended_color params (i + 1) with
    | some (color, skip) => ({ s with fg := color }, skip)
    | none => (s, 0)
  else if p = 39 then ({ s with fg := Color.DEFAULT_FG }, 0)
  else if 90 ≤ p ∧ p ≤ 97 then ({ s with fg := ansiColor (p - 90 + 8) }, 0)
  else if 40 ≤ p ∧ p ≤ 47 then ({ s with bg := ansiColor (p - 40) }, 0)
  else if p = 48 then
    match parse_extended_color params (i + 1) with
    | some (color, skip) => ({ s with bg := color }, skip)
    | none => (s, 0)
  else if p = 49 then ({ s with bg := Color.DEFAULT_BG }, 0)
  else if 100 ≤ p ∧ p ≤ 107 then ({ s with bg := ansiColor (p - 100 + 8) }, 0)
  else (s, 0)

/-- Fuel-driven form of the while i < params.len() loop of handle_sgr; the
index advances by at least one per iteration, so fuel = params.length always
suffices and the fuel only makes the recursion structural. -/
def sgrLoopF : Nat → List Nat → Nat → SgrState → SgrState
  | 0, _, _, s => s
  | fuel + 1, params, i, s =>
    if h : i < params.length then
      let (s, skip) := sgrStep params i s (params.get ⟨i, h⟩)
      sgrLoopF fuel params (i + skip + 1) s
    else s

/-- The while i < params.len() loop of handle_sgr. -/
def sgrLoop (params : List Nat) (i : Nat) (s : SgrState) : SgrState :=
  sgrLoopF params.length params i s

/-- Terminal::handle_sgr. -/
def Terminal.handle_sgr (t : Terminal) (params : List Nat) : Terminal :=
  if params = [] then
    { t with attr := CellAttr.empty, fg := Color.DEFAULT_FG, bg := Color.DEFAULT_BG }
  else
    let s := sgrLoop params 0 { attr := t.attr, fg := t.fg, bg := t.bg }
    { t with attr := s.attr, fg := s.fg, bg := s.bg }

/-- One iteration of the set_dec_mode parameter loop (a match on the mode
code, as in the source). -/
def Terminal.set_dec_mode_one (t : Terminal) (p : Nat) (enable : Bool) : Terminal :=
  match p with
  | 1 => { t with cursor_keys_app := enable }
  | 6 => { t with origin_mode := enable }
  | 7 => { t with auto_wrap := enable }
  | 12 => t
  | 25 => { t with cursor_visible := enable }
  | 9 => { t with mouse_mode := if enable then .X10 else .Off }
  | 1000 => { t with mouse_mode := if enable then .Normal else .Off }
  | 1002 => { t with mouse_mode := if enable then .Button else .Off }
  | 1003 => { t with mouse_mode := if enable then .Any else .Off }
  | 1006 => { t with mouse_encoding := if enable then .Sgr else .X10 }
  | 47 =>
    if enable then
      let old := t.grid
      { t with grid := Grid.new t.grid.cols t.grid.rows, alt_grid := some old }
    else
      match t.alt_grid with
      | some main => { t with grid := main, alt_grid := none }
      | none => t
  | 1047 =>
    if enable then
      let old := t.grid
      { t with grid := Grid.new t.grid.cols t.grid.rows, alt_grid := some old }
    else
      match t.alt_grid with
      | some main => { t with grid := main, alt_grid := none }
      | none => t
  | 1048 =>
    if enable then
      { t with saved_cursor := (t.grid.cursor_row, t.grid.cursor_col),
               saved_attr := t.attr, saved_fg := t.fg, saved_bg := t.bg }
    else
      let (r, c) := t.saved_cursor
      { t with grid := { t.grid with cursor_row := min r (t.grid.rows - 1),
                                     cursor_col := min c (t.grid.cols - 1) },
               attr := t.saved_attr, fg := t.saved_fg, bg := t.saved_bg }
  | 1049 =>
    if enable then
      let old := t.grid
      { t with saved_cursor := (t.grid.cursor_row, t.grid.cursor_col),
               saved_attr := t.attr, saved_fg := t.fg, saved_bg := t.bg,
               grid := Grid.new t.grid.cols t.grid.rows, alt_grid := some old }
    else
      match t.alt_grid with
      | some main =>
        let t := { t with grid := main, alt_grid := none }
        let (r, c) := t.saved_cursor
        { t with grid := { t.grid with cursor_row := min r (t.grid.rows - 1),
                                       cursor_col := min c (t.grid.cols - 1) },
                 attr := t.saved_attr, fg := t.saved_fg, bg := t.saved_bg }
      | none => t
  | 2004 => { t with bracketed_paste := enable }
  | _ => t

/-- Terminal::set_dec_mode (loops over all params). -/
def Terminal.set_dec_mode (t : Terminal) (params : List Nat) (enable : Bool) :
    Terminal :=
  params.foldl (fun t p => t.set_dec_mode_one p enable) t

/-- Terminal::set_ansi_mode: recognises IRM and LNM but does nothing. -/
def Terminal.set_ansi_mode (t : Terminal) (_params : List Nat) (_enable : Bool) :
    Terminal := t

/-- Terminal::esc_dispatch. -/
def Terminal.esc_dispatch (t : Terminal) (final_byte : Nat)
    (intermediates : List Nat) : Terminal :=
  if intermediates.head? = some 0x23 then
    match final_byte with
    | 0x38 =>
      let cs := (List.range t.grid.rows).foldl (fun cs r =>
        (List.range t.grid.cols).foldl (fun cs c =>
          cellSet cs t.grid.cols r c
            { ch := 'E', attr := CellAttr.empty,
              fg := Color.DEFAULT_FG, bg := Color.DEFAULT_BG }) cs) t.grid.cells
      { t with grid := { t.grid with cells := cs } }
    | _ => t
  else
    match final_byte with
    | 0x37 =>
      { t with saved_cursor := (t.grid.cursor_row, t.grid.cursor_col),
               saved_attr := t.attr, saved_fg := t.fg, saved_bg := t.bg }
    | 0x38 =>
      let (r, c) := t.saved_cursor
      { t with grid := { t.grid with cursor_row := min r (t.grid.rows - 1),
                                     cursor_col := min c (t.grid.cols - 1) },
               attr := t.saved_attr, fg := t.saved_fg, bg := t.saved_bg }
    | 0x4d => t.reverse_index
    | 0x44 => t.index
    | 0x45 => ({ t with grid := { t.grid with cursor_col := 0 } }).index
    | 0x48 =>
      if t.grid.cursor_col < t.tab_stops.length then
        { t with tab_stops := t.tab_stops.set t.grid.cursor_col true }
      else t
    | 0x3d => { t with keypad_app := true }
    | 0x3e => { t with keypad_app := false }
    | 0x63 => Terminal.new t.grid.cols t.grid.rows
    | _ => t

/-- Terminal::osc_dispatch, title branch (handler.rs 689-691). -/
def Terminal.oscTitle (t : Terminal) (s : List Char) : Terminal :=
  match (chopPre ['0', ';'] s).orElse (fun _ => chopPre ['2', ';'] s) with
  | some rest => { t with title := rest }
  | none => t

/-- Terminal::osc_dispatch, OSC 7 branch (handler.rs 693-698). -/
def Terminal.oscCwd (t : Terminal) (s : List Char) : Terminal :=
  if List.isPrefixOf ['7', ';'] s then
    match chopPre ['7', ';'] s with
    | some url =>
      let t := { t with osc7_cwd := some url }
      { t with shell := t.shell.handle_osc7 url }
    | none => t
  else t

/-- Terminal::osc_dispatch, OSC 133 branch (handler.rs 700-703). -/
def Terminal.osc133 (t : Terminal) (s : List Char) : Terminal :=
  match chopPre ['1', '3', '3', ';'] s with
  | some rest =>
    let t := { t with osc133_data := some rest }
    { t with shell := t.shell.handle_osc133 rest t.grid.cursor_row }
  | none => t

/-- Terminal::osc_dispatch, OSC 52 branch (handler.rs 705-707): the raw
payload string is stored, unconditionally. -/
def Terminal.osc52 (t : Terminal) (s : List Char) : Terminal :=
  if List.isPrefixOf ['5', '2', ';'] s then { t with osc52_data := some s } else t

/-- Terminal::osc_dispatch: the four sequential branch blocks of the source. -/
def Terminal.osc_dispatch (t : Terminal) (data : List Nat) : Terminal :=
  let s := utf8Lossy data
  (((t.oscTitle s).oscCwd s).osc133 s).osc52 s

/-- Terminal::csi_dispatch (a match on the final byte, as in the source;
arms whose source guard fails fall through to the catch-all, which the inner
else-branches reproduce). The DECSTBM default bottom uses rows as u16
(% 65536) and wsub for bottom - 1, which the source can underflow. -/
def Terminal.csi_dispatch (t : Terminal) (final_byte : Nat) (params : List Nat)
    (intermediates : List Nat) : Terminal :=
  let is_private := intermediates.head? = some 0x3f
  let is_space := intermediates.head? = some 0x20
  match final_byte with
  | 0x41 => -- CUU
    let n := paramAt params 0 1
    let top := if t.origin_mode then t.scroll_top else 0
    { t with grid := { t.grid with cursor_row := max (t.grid.cursor_row - n) top } }
  | 0x42 => -- CUD
    let n := paramAt params 0 1
    let bottom := if t.origin_mode then t.scroll_bottom else t.grid.rows - 1
    { t with grid := { t.grid with cursor_row := min (t.grid.cursor_row + n) bottom } }
  | 0x43 => -- CUF
    let n := paramAt params 0 1
    { t with grid := { t.grid with
        cursor_col := min (t.grid.cursor_col + n) (t.grid.cols - 1) } }
  | 0x44 => -- CUB
    let n := paramAt params 0 1
    { t with grid := { t.grid with cursor_col := t.grid.cursor_col - n } }
  | 0x45 => -- CNL
    let n := paramAt params 0 1
    let mx := t.grid.rows - 1
    { t with grid := { t.grid with cursor_row := min (t.grid.cursor_row + n) mx,
                                   cursor_col := 0 } }
  | 0x46 => -- CPL
    let n := paramAt params 0 1
    { t with grid := { t.grid with cursor_row := t.grid.cursor_row - n,
                                   cursor_col := 0 } }
  | 0x47 | 0x60 => -- CHA / HPA
    let col := paramAt params 0 1
    { t with grid := { t.grid with cursor_col := min (col - 1) (t.grid.cols - 1) } }
  | 0x48 | 0x66 => -- CUP / HVP
    let row := paramAt params 0 1
    let col := paramAt params 1 1
    let offset := if t.origin_mode then t.scroll_top else 0
    { t with grid := { t.grid with
        cursor_row := min (offset + row - 1) (t.grid.rows - 1),
        cursor_col := min (col - 1) (t.grid.cols - 1) } }
  | 0x64 => -- VPA
    let row := paramAt params 0 1
    { t with grid := { t.grid with cursor_row := min (row - 1) (t.grid.rows - 1) } }
  | 0x49 => -- CHT
    let n := paramAt params 0 1
    (List.range n).foldl (fun t _ =>
      let next := findNextStop t.tab_stops t.grid.cursor_col t.grid.cols
      { t with grid := { t.grid with cursor_col := next } }) t
  | 0x5a => -- CBT
    let n := paramAt params 0 1
    (List.range n).foldl (fun t _ =>
      let prev := findPrevStop t.tab_stops t.grid.cursor_col
      { t with grid := { t.grid with cursor_col := prev } }) t
  | 0x4a => -- ED
    let mode := paramAt params 0 0
    if mode = 0 then { t with grid := t.grid.erase_below }
    else if mode = 1 then { t with grid := t.grid.erase_above }
    else if mode = 2 ∨ mode = 3 then { t with grid := t.grid.clear }
    else t
  | 0x4b => -- EL
    let mode := paramAt params 0 0
    if mode = 0 then { t with grid := t.grid.erase_line_right }
    else if mode = 1 then { t with grid := t.grid.erase_line_left }
    else if mode = 2 then { t with grid := t.grid.erase_line }
    else t
  | 0x58 => -- ECH
    let n := paramAt params 0 1
    let row := t.grid.cursor_row
    let col := t.grid.cursor_col
    let cs := (List.range' col (min (col + n) t.grid.cols - col)).foldl
      (fun cs c => cellSet cs t.grid.cols row c Cell.default) t.grid.cells
    { t with grid := { t.grid with cells := cs } }
  | 0x4c => -- IL
    let n := paramAt params 0 1
    { t with grid := t.grid.insert_lines t.grid.cursor_row n t.scroll_bottom }
  | 0x4d => -- DL
    let n := paramAt params 0 1
    { t with grid := t.grid.delete_lines t.grid.cursor_row n t.scroll_bottom }
  | 0x50 => -- DCH
    let n := paramAt params 0 1
    { t with grid := t.grid.delete_chars n }
  | 0x40 => -- ICH
    let n := paramAt params 0 1
    { t with grid := t.grid.insert_chars n }
  | 0x53 => -- SU (guard !is_private)
    if is_private = false then
      let n := paramAt params 0 1
      (List.range n).foldl (fun t _ =>
        { t with grid := t.grid.scroll_region_up t.scroll_top t.scroll_bottom }) t
    else t
  | 0x54 => -- SD
    let n := paramAt params 0 1
    (List.range n).foldl (fun t _ =>
      { t with grid := t.grid.scroll_region_down t.scroll_top t.scroll_bottom }) t
  | 0x62 => -- REP
    let n := paramAt params 0 1
    if t.grid.cursor_col > 0 then
      let ch := (t.grid.cell t.grid.cursor_row (t.grid.cursor_col - 1)).ch
      (List.range n).foldl (fun t _ => t.print ch) t
    else t
  | 0x6d => t.handle_sgr params -- SGR
  | 0x72 => -- DECSTBM (guard !is_private)
    if is_private = false then
      let top := paramAt params 0 1
      let bottom := paramAt params 1 (t.grid.rows % 65536)
      let t := { t with scroll_top := min (top - 1) (t.grid.rows - 1),
                        scroll_bottom := min (wsub bottom 1) (t.grid.rows - 1) }
      { t with grid := { t.grid with
          cursor_row := if t.origin_mode then t.scroll_top else 0,
          cursor_col := 0 } }
    else t
  | 0x68 => -- SM / DECSET
    if is_private then t.set_dec_mode params true
    else t.set_ansi_mode params true
  | 0x6c => -- RM / DECRST
    if is_private then t.set_dec_mode params false
    else t.set_ansi_mode params false
  | 0x73 => -- ANSI save cursor (guard !is_private)
    if is_private = false then
      { t with saved_cursor := (t.grid.cursor_row, t.grid.cursor_col),
               saved_attr := t.attr, saved_fg := t.fg, saved_bg := t.bg }
    else t
  | 0x75 => -- ANSI restore cursor
    let (r, c) := t.saved_cursor
    { t with grid := { t.grid with cursor_row := min r (t.grid.rows - 1),
                                   cursor_col := min c (t.grid.cols - 1) },
             attr := t.saved_attr, fg := t.saved_fg, bg := t.saved_bg }
  | 0x6e => -- DSR
    if is_private = false then
      let p := paramAt params 0 0
      if p = 5 then
        { t with write_back := t.write_back ++ [0x1b, 0x5b, 0x30, 0x6e] }
      else if p = 6 then
        let r := t.grid.cursor_row + 1
        let c := t.grid.cursor_col + 1
        { t with write_back := t.write_back ++
            [0x1b, 0x5b] ++ decBytes r ++ [0x3b] ++ decBytes c ++ [0x52] }
      else t
    else
      let p := paramAt params 0 0
      if p = 6 then
        let r := t.grid.cursor_row + 1
        let c := t.grid.cursor_col + 1
        { t with write_back := t.write_back ++
            [0x1b, 0x5b, 0x3f] ++ decBytes r ++ [0x3b] ++ decBytes c ++ [0x52] }
      else t
  | 0x63 => -- DA (guard !is_private)
    if is_private = false then
      if paramAt params 0 0 = 0 then
        { t with write_back := t.write_back ++
            [0x1b, 0x5b, 0x3f, 0x36, 0x32, 0x3b, 0x32, 0x32, 0x63] }
      else t
    else t
  | 0x67 => -- TBC
    let p := paramAt params 0 0
    if p = 0 then
      if t.grid.cursor_col < t.tab_stops.length then
        { t with tab_stops := t.tab_stops.set t.grid.cursor_col false }
      else t
    else if p = 3 then
      { t with tab_stops := List.replicate t.tab_stops.length false }
    else t
  | 0x71 => -- DECSCUSR (guard is_space): no terminal-state effect
    if is_space then t else t
  | _ => t

/-- Terminal::handle_action. -/
def Terminal.handle_action (t : Terminal) (action : Action) : Terminal :=
  match action with
  | .Print ch => t.print ch
  | .Execute byte => t.execute byte
  | .CsiDispatch f ps is => t.csi_dispatch f ps is
  | .EscDispatch f is => t.esc_dispatch f is
  | .OscDispatch data => t.osc_dispatch data
  | .NoAction => t

/-- The loop body of Terminal::feed_bytes for one byte. The source's guard
byte < 0x80 || pending || byte >= 0x80 is a tautology and is kept as such. -/
def feedByte (tp : Terminal × VtParser) (byte : Nat) : Terminal × VtParser :=
  let (t, p) := tp
  if byte < 0x80 ∨ t.utf8.is_pending ∨ byte ≥ 0x80 then
    let (action, p) := p.advance byte
    match action with
    | .Print ch =>
      if ch = replacementChar ∧ byte ≥ 0x80 then
        let (decoded, u) := t.utf8.feed byte
        let t := { t with utf8 := u }
        match decoded with
        | some c => (t.print c, p)
        | none => (t, p)
      else (t.handle_action (.Print ch), p)
    | action => (t.handle_action action, p)
  else (t, p)

/-- Terminal::feed_bytes, threading the parser through every byte. -/
def feed_bytes (tp : Terminal × VtParser) (data : List Nat) : Terminal × VtParser :=
  data.foldl feedByte tp

/-- Terminal::set_default_colors. -/
def Terminal.set_default_colors (t : Terminal) (fg bg : Color) : Terminal :=
  { t with fg := fg, bg := bg }

/-- Terminal::resize. -/
def Terminal.resize (t : Terminal) (cols rows : Nat) : Terminal :=
  { t with grid := t.grid.resize cols rows,
           scroll_top := 0,
           scroll_bottom := rows - 1,
           tab_stops := defaultTabStops cols }


/-! ## Helper lemmas: shape and bounds preservation -/

/-- Fold preservation of an invariant. -/
theorem foldl_pres {α : Type} {β : Type} (P : α → Prop) (f : α → β → α)
    (hf : ∀ a b, P a → P (f a b)) :
    ∀ (l : List β) (a : α), P a → P (l.foldl f a) := by
  intro l
  induction l with
  | nil => intro a h; exact h
  | cons x xs ih => intro a h; exact ih _ (hf _ _ h)

/-- Two grids with the same dimensions and cursor (only cells/scrollback may
differ). -/
def SameShape (g g' : Grid) : Prop :=
  g'.cols = g.cols ∧ g'.rows = g.rows ∧ g'.cursor_row = g.cursor_row ∧
  g'.cursor_col = g.cursor_col

theorem sameShape_refl (g : Grid) : SameShape g g := ⟨rfl, rfl, rfl, rfl⟩

theorem sameShape_trans {g g' g'' : Grid} (h1 : SameShape g g')
    (h2 : SameShape g' g'') : SameShape g g'' := by
  obtain ⟨a1, b1, c1, d1⟩ := h1
  obtain ⟨a2, b2, c2, d2⟩ := h2
  exact ⟨a2.trans a1, b2.trans b1, c2.trans c1, d2.trans d1⟩

theorem sameShape_scroll_region_up (g : Grid) (top bottom : Nat) :
    SameShape g (g.scroll_region_up top bottom) := by
  unfold Grid.scroll_region_up SameShape
  split <;> simp

theorem sameShape_scroll_region_down (g : Grid) (top bottom : Nat) :
    SameShape g (g.scroll_region_down top bottom) := by
  unfold Grid.scroll_region_down SameShape
  simp

theorem sameShape_insert_lines (g : Grid) (a n b : Nat) :
    SameShape g (g.insert_lines a n b) := by
  unfold Grid.insert_lines
  apply foldl_pres (fun g' => SameShape g g')
  · intro g' _ h
    refine sameShape_trans h ?_
    split <;> simp [SameShape]
  · exact sameShape_refl g

theorem sameShape_delete_lines (g : Grid) (a n b : Nat) :
    SameShape g (g.delete_lines a n b) := by
  unfold Grid.delete_lines
  apply foldl_pres (fun g' => SameShape g g')
  · intro g' _ h
    refine sameShape_trans h ?_
    split <;> simp [SameShape]
  · exact sameShape_refl g

theorem sameShape_delete_chars (g : Grid) (n : Nat) :
    SameShape g (g.delete_chars n) := by
  unfold Grid.delete_chars SameShape; simp

theorem sameShape_insert_chars (g : Grid) (n : Nat) :
    SameShape g (g.insert_chars n) := by
  unfold Grid.insert_chars SameShape; simp

theorem sameShape_erase_line_right (g : Grid) :
    SameShape g g.erase_line_right := by
  unfold Grid.erase_line_right SameShape; simp

theorem sameShape_erase_line_left (g : Grid) :
    SameShape g g.erase_line_left := by
  unfold Grid.erase_line_left SameShape; simp

theorem sameShape_erase_line (g : Grid) :
    SameShape g g.erase_line := by
  unfold Grid.erase_line SameShape; simp

theorem sameShape_erase_below (g : Grid) :
    SameShape g g.erase_below := by
  refine sameShape_trans (sameShape_erase_line_right g) ?_
  unfold Grid.erase_below SameShape
  simp

theorem sameShape_erase_above (g : Grid) :
    SameShape g g.erase_above := by
  unfold Grid.erase_above
  have hmid : SameShape g { g with cells :=
      (List.range g.cursor_row).foldl (fun cs row => clearRowCells g.cols row cs) g.cells } :=
    ⟨rfl, rfl, rfl, rfl⟩
  exact sameShape_trans hmid (sameShape_erase_line_left _)

theorem sameShape_scroll_up (g : Grid) : SameShape g g.scroll_up := by
  unfold Grid.scroll_up SameShape; simp

/-- Bounds facts for Grid.newline. -/
theorem newline_bounds (g : Grid) (_hr : 0 < g.rows) (hrow : g.cursor_row < g.rows) :
    g.newline.cols = g.cols ∧ g.newline.rows = g.rows ∧
    g.newline.cursor_row < g.rows ∧ g.newline.cursor_col = 0 := by
  obtain ⟨hc, hrws, hcr, hcc⟩ := sameShape_scroll_up g
  unfold Grid.newline
  split <;> simp_all

/-- Bounds facts for Grid.put_char. -/
theorem put_char_bounds (g : Grid) (ch : Char) (attr : CellAttr) (fg bg : Color)
    (hc : 0 < g.cols) (hr : 0 < g.rows) (hrow : g.cursor_row < g.rows) :
    (g.put_char ch attr fg bg).cols = g.cols ∧
    (g.put_char ch attr fg bg).rows = g.rows ∧
    (g.put_char ch attr fg bg).cursor_row < g.rows ∧
    (g.put_char ch attr fg bg).cursor_col ≤ g.cols := by
  unfold Grid.put_char
  split
  · obtain ⟨h1, h2, h3, h4⟩ := newline_bounds { g with cursor_col := 0 } hr hrow
    simp_all [Grid.setCell]
    omega
  · rename_i hlt
    simp_all [Grid.setCell]
    omega

/-- Dimension and cursor bounds of a grid: fixed dimensions, row strictly in
range, column at most cols (the pending-wrap position). -/
def GridBounds (cols rows : Nat) (g : Grid) : Prop :=
  g.cols = cols ∧ g.rows = rows ∧ g.cursor_row < rows ∧ g.cursor_col ≤ cols

/-- The terminal invariant maintained by every byte of input: positive fixed
dimensions, grid bounds, scroll bounds each below rows, the saved main grid
(if on the alt screen) also in bounds, and a tab-stop bitmap of width cols. -/
def Inv (cols rows : Nat) (t : Terminal) : Prop :=
  0 < cols ∧ 0 < rows ∧ GridBounds cols rows t.grid ∧
  t.scroll_top < rows ∧ t.scroll_bottom < rows ∧
  (∀ g, t.alt_grid = some g → GridBounds cols rows g) ∧
  t.tab_stops.length = cols

theorem gridBounds_sameShape {cols rows : Nat} {g g' : Grid}
    (h : GridBounds cols rows g) (hs : SameShape g g') :
    GridBounds cols rows g' := by
  obtain ⟨h1, h2, h3, h4⟩ := h
  obtain ⟨s1, s2, s3, s4⟩ := hs
  exact ⟨s1.trans h1, s2.trans h2, by omega, by omega⟩

theorem inv_with_grid {cols rows : Nat} {t : Terminal} (g' : Grid)
    (h : Inv cols rows t) (hg : GridBounds cols rows g') :
    Inv cols rows { t with grid := g' } := by
  obtain ⟨hc0, hr0, _, hst, hsb, halt, htab⟩ := h
  exact ⟨hc0, hr0, hg, hst, hsb, halt, htab⟩

theorem inv_grid_sameShape {cols rows : Nat} {t : Terminal} (g' : Grid)
    (h : Inv cols rows t) (hs : SameShape t.grid g') :
    Inv cols rows { t with grid := g' } :=
  inv_with_grid g' h (gridBounds_sameShape h.2.2.1 hs)

theorem inv_cursor {cols rows : Nat} {t : Terminal} (r c : Nat)
    (h : Inv cols rows t) (hr : r < rows) (hc : c ≤ cols) :
    Inv cols rows { t with grid := { t.grid with cursor_row := r, cursor_col := c } } := by
  obtain ⟨hc0, hr0, ⟨g1, g2, g3, g4⟩, hst, hsb, halt, htab⟩ := h
  exact ⟨hc0, hr0, ⟨g1, g2, hr, hc⟩, hst, hsb, halt, htab⟩

theorem inv_cursor_row {cols rows : Nat} {t : Terminal} (r : Nat)
    (h : Inv cols rows t) (hr : r < rows) :
    Inv cols rows { t with grid := { t.grid with cursor_row := r } } := by
  obtain ⟨hc0, hr0, ⟨g1, g2, g3, g4⟩, hst, hsb, halt, htab⟩ := h
  exact ⟨hc0, hr0, ⟨g1, g2, hr, g4⟩, hst, hsb, halt, htab⟩

theorem inv_cursor_col {cols rows : Nat} {t : Terminal} (c : Nat)
    (h : Inv cols rows t) (hc : c ≤ cols) :
    Inv cols rows { t with grid := { t.grid with cursor_col := c } } := by
  obtain ⟨hc0, hr0, ⟨g1, g2, g3, g4⟩, hst, hsb, halt, htab⟩ := h
  exact ⟨hc0, hr0, ⟨g1, g2, g3, hc⟩, hst, hsb, halt, htab⟩

theorem put_char_gridBounds {cols rows : Nat} {g : Grid} (ch : Char)
    (attr : CellAttr) (fg bg : Color) (hc0 : 0 < cols) (hr0 : 0 < rows)
    (h1 : g.cols = cols) (h2 : g.rows = rows) (h3 : g.cursor_row < rows) :
    GridBounds cols rows (g.put_char ch attr fg bg) := by
  obtain ⟨p1, p2, p3, p4⟩ := put_char_bounds g ch attr fg bg (by omega) (by omega)
    (by omega)
  exact ⟨p1.trans h1, p2.trans h2, by omega, by omega⟩

theorem inv_put_char {cols rows : Nat} {t : Terminal} (ch : Char)
    (attr : CellAttr) (fg bg : Color) (h : Inv cols rows t) :
    Inv cols rows { t with grid := t.grid.put_char ch attr fg bg } := by
  obtain ⟨hc0, hr0, ⟨g1, g2, g3, g4⟩, rest⟩ := h
  exact inv_with_grid _ ⟨hc0, hr0, ⟨g1, g2, g3, g4⟩, rest⟩
    (put_char_gridBounds ch attr fg bg hc0 hr0 g1 g2 g3)

theorem index_inv {cols rows : Nat} {t : Terminal} (h : Inv cols rows t) :
    Inv cols rows t.index := by
  obtain ⟨hc0, hr0, ⟨g1, g2, g3, g4⟩, hst, hsb, halt, htab⟩ := h
  unfold Terminal.index
  split
  · exact inv_grid_sameShape _ ⟨hc0, hr0, ⟨g1, g2, g3, g4⟩, hst, hsb, halt, htab⟩
      (sameShape_scroll_region_up _ _ _)
  · split
    · rename_i hne hlt
      exact inv_cursor_row _ ⟨hc0, hr0, ⟨g1, g2, g3, g4⟩, hst, hsb, halt, htab⟩
        (by omega)
    · exact ⟨hc0, hr0, ⟨g1, g2, g3, g4⟩, hst, hsb, halt, htab⟩

theorem reverse_index_inv {cols rows : Nat} {t : Terminal} (h : Inv cols rows t) :
    Inv cols rows t.reverse_index := by
  obtain ⟨hc0, hr0, ⟨g1, g2, g3, g4⟩, hst, hsb, halt, htab⟩ := h
  unfold Terminal.reverse_index
  split
  · exact inv_grid_sameShape _ ⟨hc0, hr0, ⟨g1, g2, g3, g4⟩, hst, hsb, halt, htab⟩
      (sameShape_scroll_region_down _ _ _)
  · split
    · rename_i hne hgt
      exact inv_cursor_row _ ⟨hc0, hr0, ⟨g1, g2, g3, g4⟩, hst, hsb, halt, htab⟩
        (by omega)
    · exact ⟨hc0, hr0, ⟨g1, g2, g3, g4⟩, hst, hsb, halt, htab⟩

theorem inv_clear {cols rows : Nat} {t : Terminal} (h : Inv cols rows t) :
    Inv cols rows { t with grid := t.grid.clear } := by
  obtain ⟨hc0, hr0, ⟨g1, g2, g3, g4⟩, hst, hsb, halt, htab⟩ := h
  exact inv_with_grid _ ⟨hc0, hr0, ⟨g1, g2, g3, g4⟩, hst, hsb, halt, htab⟩
    ⟨g1, g2, hr0, Nat.zero_le cols⟩

theorem findNextStop_lt (stops : List Bool) (col cols : Nat) (hc : 0 < cols)
    (hlen : stops.length = cols) : findNextStop stops col cols < cols := by
  unfold findNextStop
  split
  · rename_i e heq
    have hmem : e ∈ stops.enum.drop (col + 1) := List.mem_of_find?_eq_some heq
    have hmem2 : e ∈ stops.enum := List.mem_of_mem_drop hmem
    have hget := List.mem_enum_iff_get?.1 hmem2
    obtain ⟨hlt, _⟩ := List.get?_eq_some.1 hget
    omega
  · omega

theorem findPrevStop_lt (stops : List Bool) (col cols : Nat) (hc : 0 < cols)
    (hlen : stops.length = cols) : findPrevStop stops col < cols := by
  unfold findPrevStop
  split
  · rename_i e heq
    have hmem : e ∈ stops.enum.reverse.drop (stops.length - col) :=
      List.mem_of_find?_eq_some heq
    have hmem2 : e ∈ stops.enum := List.mem_reverse.1 (List.mem_of_mem_drop hmem)
    have hget := List.mem_enum_iff_get?.1 hmem2
    obtain ⟨hlt, _⟩ := List.get?_eq_some.1 hget
    omega
  · omega

theorem defaultTabStops_length (cols : Nat) :
    (defaultTabStops cols).length = cols := by
  unfold defaultTabStops
  refine foldl_pres (fun ts : List Bool => ts.length = cols) _ ?_ _ _ ?_
  · intro ts i h; simpa using h
  · simp

theorem terminal_new_inv (cols rows : Nat) (hc : 0 < cols) (hr : 0 < rows) :
    Inv cols rows (Terminal.new cols rows) := by
  refine ⟨hc, hr, ⟨rfl, rfl, hr, Nat.zero_le _⟩, hr, show rows - 1 < rows by omega, ?_, ?_⟩
  · intro g hg
    simp [Terminal.new] at hg
  · exact defaultTabStops_length cols

/-- The invariant without the cursor-column bound; Terminal::print passes
through a transient state (the wide-char no-wrap column adjustment) where
the column may exceed cols before put_char normalises it. -/
def WeakInv (cols rows : Nat) (t : Terminal) : Prop :=
  0 < cols ∧ 0 < rows ∧
  t.grid.cols = cols ∧ t.grid.rows = rows ∧ t.grid.cursor_row < rows ∧
  t.scroll_top < rows ∧ t.scroll_bottom < rows ∧
  (∀ g, t.alt_grid = some g → GridBounds cols rows g) ∧
  t.tab_stops.length = cols

theorem weakInv_of_inv {cols rows : Nat} {t : Terminal} (h : Inv cols rows t) :
    WeakInv cols rows t := by
  obtain ⟨hc0, hr0, ⟨g1, g2, g3, _⟩, hst, hsb, halt, htab⟩ := h
  exact ⟨hc0, hr0, g1, g2, g3, hst, hsb, halt, htab⟩

theorem weakInv_cursor_col {cols rows : Nat} {t : Terminal} (c : Nat)
    (h : Inv cols rows t) :
    WeakInv cols rows { t with grid := { t.grid with cursor_col := c } } := by
  obtain ⟨hc0, hr0, ⟨g1, g2, g3, _⟩, hst, hsb, halt, htab⟩ := h
  exact ⟨hc0, hr0, g1, g2, g3, hst, hsb, halt, htab⟩

theorem inv_put_char_weak {cols rows : Nat} {t : Terminal} (ch : Char)
    (attr : CellAttr) (fg bg : Color) (h : WeakInv cols rows t) :
    Inv cols rows { t with grid := t.grid.put_char ch attr fg bg } := by
  obtain ⟨hc0, hr0, g1, g2, g3, hst, hsb, halt, htab⟩ := h
  exact ⟨hc0, hr0, put_char_gridBounds ch attr fg bg hc0 hr0 g1 g2 g3,
    hst, hsb, halt, htab⟩

theorem printWrapAdjust_inv {cols rows : Nat} {t : Terminal} {cols' : Nat}
    (h : Inv cols rows t) (hc : cols' = t.grid.cols) :
    Inv cols rows (t.printWrapAdjust cols') := by
  have hg := h.2.2.1
  unfold Terminal.printWrapAdjust
  split
  · split
    · exact index_inv (inv_cursor_col 0 h (Nat.zero_le _))
    · refine inv_cursor_col (cols' - 1) h ?_
      obtain ⟨g1, _, _, _⟩ := hg
      omega
  · exact h

theorem printWideRoom_weakInv {cols rows : Nat} {t : Terminal} {w cols' : Nat}
    (h : Inv cols rows t) : WeakInv cols rows (t.printWideRoom w cols') := by
  unfold Terminal.printWideRoom
  split
  · split
    · exact weakInv_of_inv (index_inv (inv_cursor_col 0
        (inv_put_char ' ' t.attr t.fg t.bg h) (Nat.zero_le _)))
    · exact weakInv_cursor_col _ h
  · exact weakInv_of_inv h

theorem printWideSentinel_inv {cols rows : Nat} {t : Terminal} {w cols' : Nat}
    (h : Inv cols rows t) (hc : cols' = t.grid.cols) :
    Inv cols rows (t.printWideSentinel w cols') := by
  obtain ⟨hc0, hr0, ⟨g1, g2, g3, g4⟩, hst, hsb, halt, htab⟩ := h
  unfold Terminal.printWideSentinel
  split
  · rename_i hcond
    refine ⟨hc0, hr0, ⟨?_, ?_, ?_, ?_⟩, hst, hsb, halt, htab⟩ <;>
      simp [Grid.setCell] <;> omega
  · exact ⟨hc0, hr0, ⟨g1, g2, g3, g4⟩, hst, hsb, halt, htab⟩

theorem printClamp_inv {cols rows : Nat} {t : Terminal} {cols' : Nat}
    (h : Inv cols rows t) (hc : cols' = t.grid.cols) :
    Inv cols rows (t.printClamp cols') := by
  have g1 := (h.2.2.1).1
  unfold Terminal.printClamp
  split
  · refine inv_cursor_col (cols' - 1) h ?_
    omega
  · exact h

theorem print_inv {cols rows : Nat} {t : Terminal} (ch : Char)
    (h : Inv cols rows t) : Inv cols rows (t.print ch) := by
  simp only [Terminal.print]
  split
  · exact h
  · set t1 := t.printWrapAdjust t.grid.cols with ht1
    set t2 := t1.printWideRoom (char_width ch) t.grid.cols with ht2
    set t3 : Terminal := { t2 with grid := t2.grid.put_char ch t2.attr t2.fg t2.bg }
      with ht3
    set t4 := t3.printWideSentinel (char_width ch) t.grid.cols with ht4
    have h1 : Inv cols rows t1 := printWrapAdjust_inv h rfl
    have h2 : WeakInv cols rows t2 := printWideRoom_weakInv h1
    have h3 : Inv cols rows t3 := inv_put_char_weak ch _ _ _ h2
    have hc3 : t.grid.cols = t3.grid.cols := by
      have e1 := (h3.2.2.1).1
      have e2 := (h.2.2.1).1
      omega
    have h4 : Inv cols rows t4 := printWideSentinel_inv h3 hc3
    have hc4 : t.grid.cols = t4.grid.cols := by
      have e1 := (h4.2.2.1).1
      have e2 := (h.2.2.1).1
      omega
    exact printClamp_inv h4 hc4

/-- Invariant transfer between terminals that agree on every
invariant-relevant field. -/
theorem inv_same_fields {cols rows : Nat} {t t' : Terminal}
    (h : Inv cols rows t) (hg : t'.grid = t.grid)
    (h1 : t'.scroll_top = t.scroll_top) (h2 : t'.scroll_bottom = t.scroll_bottom)
    (h3 : t'.alt_grid = t.alt_grid) (h4 : t'.tab_stops = t.tab_stops) :
    Inv cols rows t' := by
  obtain ⟨a, b, c, d, e, f, g⟩ := h
  refine ⟨a, b, ?_, ?_, ?_, ?_, ?_⟩
  · rw [hg]; exact c
  · rw [h1]; exact d
  · rw [h2]; exact e
  · intro gr hgr; exact f gr (by rw [← h3]; exact hgr)
  · rw [h4]; exact g

/-- Invariant after a cursor restore with the source's min clamps, combined
with attribute restores. -/
theorem inv_restore {cols rows : Nat} {t : Terminal} (r c : Nat)
    (a : CellAttr) (f b : Color) (h : Inv cols rows t) :
    Inv cols rows { t with
      grid := { t.grid with cursor_row := min r (t.grid.rows - 1),
                            cursor_col := min c (t.grid.cols - 1) },
      attr := a, fg := f, bg := b } := by
  obtain ⟨hc0, hr0, ⟨g1, g2, g3, g4⟩, hst, hsb, halt, htab⟩ := h
  refine ⟨hc0, hr0, ⟨g1, g2, ?_, ?_⟩, hst, hsb, halt, htab⟩
  · show min r (t.grid.rows - 1) < rows
    omega
  · show min c (t.grid.cols - 1) ≤ cols
    omega

/-- Invariant after a tab-stop bit update. -/
theorem inv_tab_set {cols rows : Nat} {t : Terminal} (i : Nat) (b : Bool)
    (h : Inv cols rows t) :
    Inv cols rows { t with tab_stops := t.tab_stops.set i b } := by
  obtain ⟨hc0, hr0, hg, hst, hsb, halt, htab⟩ := h
  refine ⟨hc0, hr0, hg, hst, hsb, halt, ?_⟩
  show (t.tab_stops.set i b).length = cols
  simpa using htab

theorem execute_inv {cols rows : Nat} {t : Terminal} (byte : Nat)
    (h : Inv cols rows t) : Inv cols rows (t.execute byte) := by
  have g1 := (h.2.2.1).1
  have g4 := (h.2.2.1).2.2.2
  have hc0 := h.1
  have htab := h.2.2.2.2.2.2
  unfold Terminal.execute
  split
  · exact h
  · split
    · split
      · exact inv_cursor_col (t.grid.cursor_col - 1) h (by omega)
      · exact h
    · split
      · refine inv_cursor_col _ h ?_
        have hb := findNextStop_lt t.tab_stops t.grid.cursor_col t.grid.cols
          (by omega) (by omega)
        omega
      · split
        · exact index_inv h
        · split
          · exact inv_cursor_col 0 h (Nat.zero_le _)
          · exact h

theorem handle_sgr_inv {cols rows : Nat} {t : Terminal} (params : List Nat)
    (h : Inv cols rows t) : Inv cols rows (t.handle_sgr params) := by
  unfold Terminal.handle_sgr
  split
  · exact inv_same_fields h rfl rfl rfl rfl rfl
  · exact inv_same_fields h rfl rfl rfl rfl rfl

theorem oscTitle_inv {cols rows : Nat} {t : Terminal} (s : List Char)
    (h : Inv cols rows t) : Inv cols rows (t.oscTitle s) := by
  unfold Terminal.oscTitle
  split
  · exact inv_same_fields h rfl rfl rfl rfl rfl
  · exact h

theorem oscCwd_inv {cols rows : Nat} {t : Terminal} (s : List Char)
    (h : Inv cols rows t) : Inv cols rows (t.oscCwd s) := by
  unfold Terminal.oscCwd
  split
  · split
    · exact inv_same_fields h rfl rfl rfl rfl rfl
    · exact h
  · exact h

theorem osc133_inv {cols rows : Nat} {t : Terminal} (s : List Char)
    (h : Inv cols rows t) : Inv cols rows (t.osc133 s) := by
  unfold Terminal.osc133
  split
  · exact inv_same_fields h rfl rfl rfl rfl rfl
  · exact h

theorem osc52_inv {cols rows : Nat} {t : Terminal} (s : List Char)
    (h : Inv cols rows t) : Inv cols rows (t.osc52 s) := by
  unfold Terminal.osc52
  split
  · exact inv_same_fields h rfl rfl rfl rfl rfl
  · exact h

theorem osc_dispatch_inv {cols rows : Nat} {t : Terminal} (data : List Nat)
    (h : Inv cols rows t) : Inv cols rows (t.osc_dispatch data) :=
  osc52_inv _ (osc133_inv _ (oscCwd_inv _ (oscTitle_inv _ h)))

/-- Invariant after an alt-screen entry swap: fresh grid of the current
dimensions becomes active, the old grid is parked in alt_grid. The statement
covers both the plain swap (47/1047) and the 1049 variant with cursor save. -/
theorem inv_alt_enter {cols rows : Nat} {t t' : Terminal}
    (h : Inv cols rows t)
    (hg : t'.grid = Grid.new t.grid.cols t.grid.rows)
    (h3 : t'.alt_grid = some t.grid)
    (h1 : t'.scroll_top = t.scroll_top) (h2 : t'.scroll_bottom = t.scroll_bottom)
    (h4 : t'.tab_stops = t.tab_stops) :
    Inv cols rows t' := by
  obtain ⟨hc0, hr0, ⟨g1, g2, g3, g4⟩, hst, hsb, halt, htab⟩ := h
  refine ⟨hc0, hr0, ?_, ?_, ?_, ?_, ?_⟩
  · rw [hg]
    exact ⟨g1, g2, hr0, Nat.zero_le _⟩
  · rw [h1]; exact hst
  · rw [h2]; exact hsb
  · intro g hgx
    rw [h3] at hgx
    rw [← Option.some.inj hgx]
    exact ⟨g1, g2, g3, g4⟩
  · rw [h4]; exact htab

/-- Invariant after an alt-screen exit swap: the parked main grid (known to
be in bounds from the invariant) becomes active again. -/
theorem inv_alt_exit {cols rows : Nat} {t t' : Terminal} {main : Grid}
    (h : Inv cols rows t) (hmain : t.alt_grid = some main)
    (hg : t'.grid = main) (h3 : t'.alt_grid = none)
    (h1 : t'.scroll_top = t.scroll_top) (h2 : t'.scroll_bottom = t.scroll_bottom)
    (h4 : t'.tab_stops = t.tab_stops) :
    Inv cols rows t' := by
  obtain ⟨hc0, hr0, _, hst, hsb, halt, htab⟩ := h
  refine ⟨hc0, hr0, ?_, ?_, ?_, ?_, ?_⟩
  · rw [hg]; exact halt main hmain
  · rw [h1]; exact hst
  · rw [h2]; exact hsb
  · intro g hgx; rw [h3] at hgx; exact absurd hgx (by simp)
  · rw [h4]; exact htab

theorem set_dec_mode_one_inv {cols rows : Nat} {t : Terminal} (p : Nat)
    (enable : Bool) (h : Inv cols rows t) :
    Inv cols rows (t.set_dec_mode_one p enable) := by
  unfold Terminal.set_dec_mode_one
  split
  · exact inv_same_fields h rfl rfl rfl rfl rfl
  · exact inv_same_fields h rfl rfl rfl rfl rfl
  · exact inv_same_fields h rfl rfl rfl rfl rfl
  · exact h
  · exact inv_same_fields h rfl rfl rfl rfl rfl
  · exact inv_same_fields h rfl rfl rfl rfl rfl
  · exact inv_same_fields h rfl rfl rfl rfl rfl
  · exact inv_same_fields h rfl rfl rfl rfl rfl
  · exact inv_same_fields h rfl rfl rfl rfl rfl
  · exact inv_same_fields h rfl rfl rfl rfl rfl
  · -- 47
    split
    · exact inv_alt_enter h rfl rfl rfl rfl rfl
    · split
      · rename_i main heq
        exact inv_alt_exit h heq rfl rfl rfl rfl rfl
      · exact h
  · -- 1047
    split
    · exact inv_alt_enter h rfl rfl rfl rfl rfl
    · split
      · rename_i main heq
        exact inv_alt_exit h heq rfl rfl rfl rfl rfl
      · exact h
  · -- 1048
    split
    · exact inv_same_fields h rfl rfl rfl rfl rfl
    · exact inv_restore _ _ _ _ _ h
  · -- 1049
    split
    · exact inv_alt_enter h rfl rfl rfl rfl rfl
    · split
      · rename_i main heq
        exact inv_restore _ _ _ _ _ (inv_alt_exit h heq rfl rfl rfl rfl rfl)
      · exact h
  · exact inv_same_fields h rfl rfl rfl rfl rfl
  · exact h

theorem set_dec_mode_inv {cols rows : Nat} {t : Terminal} (params : List Nat)
    (enable : Bool) (h : Inv cols rows t) :
    Inv cols rows (t.set_dec_mode params enable) := by
  unfold Terminal.set_dec_mode
  exact foldl_pres (Inv cols rows) _
    (fun t' p h' => set_dec_mode_one_inv p enable h') params t h

theorem esc_dispatch_inv {cols rows : Nat} {t : Terminal} (final_byte : Nat)
    (intermediates : List Nat) (h : Inv cols rows t) :
    Inv cols rows (t.esc_dispatch final_byte intermediates) := by
  have hc0 := h.1
  have hr0 := h.2.1
  have g1 := (h.2.2.1).1
  have g2 := (h.2.2.1).2.1
  unfold Terminal.esc_dispatch
  split
  · split
    · exact inv_grid_sameShape _ h ⟨rfl, rfl, rfl, rfl⟩
    · exact h
  · split
    · exact inv_same_fields h rfl rfl rfl rfl rfl
    · exact inv_restore _ _ _ _ _ h
    · exact reverse_index_inv h
    · exact index_inv h
    · exact index_inv (inv_cursor_col 0 h (Nat.zero_le _))
    · split
      · exact inv_tab_set _ _ h
      · exact h
    · exact inv_same_fields h rfl rfl rfl rfl rfl
    · exact inv_same_fields h rfl rfl rfl rfl rfl
    · rw [g1, g2]
      exact terminal_new_inv cols rows hc0 hr0
    · exact h

theorem csi_dispatch_inv {cols rows : Nat} {t : Terminal} (final_byte : Nat)
    (params : List Nat) (intermediates : List Nat) (h : Inv cols rows t) :
    Inv cols rows (t.csi_dispatch final_byte params intermediates) := by
  have hc0 := h.1
  have hr0 := h.2.1
  obtain ⟨g1, g2, g3, g4⟩ := h.2.2.1
  have hst := h.2.2.2.1
  have hsb := h.2.2.2.2.1
  have htab := h.2.2.2.2.2.2
  unfold Terminal.csi_dispatch
  split
  all_goals dsimp only
  · -- CUU
    refine inv_cursor_row _ h ?_
    split <;> omega
  · -- CUD
    refine inv_cursor_row _ h ?_
    split <;> omega
  · -- CUF
    exact inv_cursor_col _ h (by omega)
  · -- CUB
    exact inv_cursor_col _ h (by omega)
  · -- CNL
    exact inv_cursor _ _ h (by omega) (Nat.zero_le _)
  · -- CPL
    exact inv_cursor _ _ h (by omega) (Nat.zero_le _)
  · -- CHA
    exact inv_cursor_col _ h (by omega)
  · -- HPA
    exact inv_cursor_col _ h (by omega)
  · -- CUP
    exact inv_cursor _ _ h (by omega) (by omega)
  · -- HVP
    exact inv_cursor _ _ h (by omega) (by omega)
  · -- VPA
    exact inv_cursor_row _ h (by omega)
  · -- CHT
    refine foldl_pres (Inv cols rows) _ ?_ _ _ h
    intro t' _ h'
    have g1' := (h'.2.2.1).1
    have htab' := h'.2.2.2.2.2.2
    refine inv_cursor_col _ h' ?_
    have hb := findNextStop_lt t'.tab_stops t'.grid.cursor_col t'.grid.cols
      (by omega) (by omega)
    omega
  · -- CBT
    refine foldl_pres (Inv cols rows) _ ?_ _ _ h
    intro t' _ h'
    have g1' := (h'.2.2.1).1
    have htab' := h'.2.2.2.2.2.2
    refine inv_cursor_col _ h' ?_
    have hb := findPrevStop_lt t'.tab_stops t'.grid.cursor_col t'.grid.cols
      (by omega) (by omega)
    omega
  · -- ED
    split
    · exact inv_grid_sameShape _ h (sameShape_erase_below _)
    · split
      · exact inv_grid_sameShape _ h (sameShape_erase_above _)
      · split
        · exact inv_clear h
        · exact h
  · -- EL
    split
    · exact inv_grid_sameShape _ h (sameShape_erase_line_right _)
    · split
      · exact inv_grid_sameShape _ h (sameShape_erase_line_left _)
      · split
        · exact inv_grid_sameShape _ h (sameShape_erase_line _)
        · exact h
  · -- ECH
    exact inv_grid_sameShape _ h ⟨rfl, rfl, rfl, rfl⟩
  · -- IL
    exact inv_grid_sameShape _ h (sameShape_insert_lines _ _ _ _)
  · -- DL
    exact inv_grid_sameShape _ h (sameShape_delete_lines _ _ _ _)
  · -- DCH
    exact inv_grid_sameShape _ h (sameShape_delete_chars _ _)
  · -- ICH
    exact inv_grid_sameShape _ h (sameShape_insert_chars _ _)
  · -- SU
    split
    · refine foldl_pres (Inv cols rows) _ ?_ _ _ h
      intro t' _ h'
      exact inv_grid_sameShape _ h' (sameShape_scroll_region_up _ _ _)
    · exact h
  · -- SD
    refine foldl_pres (Inv cols rows) _ ?_ _ _ h
    intro t' _ h'
    exact inv_grid_sameShape _ h' (sameShape_scroll_region_down _ _ _)
  · -- REP
    split
    · refine foldl_pres (Inv cols rows) _ ?_ _ _ h
      intro t' _ h'
      exact print_inv _ h'
    · exact h
  · -- SGR
    exact handle_sgr_inv _ h
  · -- DECSTBM
    split
    · refine ⟨hc0, hr0, ⟨g1, g2, ?_, Nat.zero_le _⟩, ?_, ?_, h.2.2.2.2.2.1, htab⟩
      · show (if t.origin_mode then min (paramAt params 0 1 - 1) (t.grid.rows - 1)
          else 0) < rows
        split <;> omega
      · show min (paramAt params 0 1 - 1) (t.grid.rows - 1) < rows
        omega
      · show min (wsub (paramAt params 1 (t.grid.rows % 65536)) 1) (t.grid.rows - 1)
          < rows
        omega
    · exact h
  · -- DECSET / SM
    split
    · exact set_dec_mode_inv _ _ h
    · exact h
  · -- DECRST / RM
    split
    · exact set_dec_mode_inv _ _ h
    · exact h
  · -- save cursor
    split
    · exact inv_same_fields h rfl rfl rfl rfl rfl
    · exact h
  · -- restore cursor
    exact inv_restore _ _ _ _ _ h
  · -- DSR
    split
    · split
      · exact inv_same_fields h rfl rfl rfl rfl rfl
      · split
        · exact inv_same_fields h rfl rfl rfl rfl rfl
        · exact h
    · split
      · exact inv_same_fields h rfl rfl rfl rfl rfl
      · exact h
  · -- DA
    split
    · split
      · exact inv_same_fields h rfl rfl rfl rfl rfl
      · exact h
    · exact h
  · -- TBC
    split
    · split
      · exact inv_tab_set _ _ h
      · exact h
    · split
      · refine ⟨hc0, hr0, ⟨g1, g2, g3, g4⟩, hst, hsb, h.2.2.2.2.2.1, ?_⟩
        show (List.replicate t.tab_stops.length false).length = cols
        simpa using htab
      · exact h
  · -- DECSCUSR
    split <;> exact h
  · -- unhandled final byte: the wildcard arm leaves t unchanged
    split <;> first | exact h | simp_all

theorem handle_action_inv {cols rows : Nat} {t : Terminal} (action : Action)
    (h : Inv cols rows t) : Inv cols rows (t.handle_action action) := by
  cases action with
  | Print ch => exact print_inv ch h
  | Execute byte => exact execute_inv byte h
  | CsiDispatch f ps is => exact csi_dispatch_inv f ps is h
  | EscDispatch f is => exact esc_dispatch_inv f is h
  | OscDispatch d => exact osc_dispatch_inv d h
  | NoAction => exact h

theorem feedByte_inv {cols rows : Nat} (tp : Terminal × VtParser) (byte : Nat)
    (h : Inv cols rows tp.1) : Inv cols rows (feedByte tp byte).1 := by
  obtain ⟨t, p⟩ := tp
  unfold feedByte
  dsimp only at h ⊢
  split
  · split
    · -- Print action
      split
      · -- UTF-8 redirect
        split
        · exact print_inv _ (inv_same_fields h rfl rfl rfl rfl rfl)
        · exact inv_same_fields h rfl rfl rfl rfl rfl
      · exact handle_action_inv _ h
    · exact handle_action_inv _ h
  · exact h

theorem feed_bytes_inv {cols rows : Nat} (tp : Terminal × VtParser)
    (data : List Nat) (h : Inv cols rows tp.1) :
    Inv cols rows (feed_bytes tp data).1 := by
  unfold feed_bytes
  exact foldl_pres (fun tp => Inv cols rows tp.1) feedByte
    (fun tp b h' => feedByte_inv tp b h') data tp h

/-! ## Claim theorems -/

/-- Claim C1: for every terminal constructed with cols ≥ 1 and rows ≥ 1 and
every input byte sequence, after feed_bytes returns the cursor column is in
[0, cols] and the cursor row is in [0, rows); cursor_col = cols is exactly
the pending-wrap state (the pending-wrap state is defined as cursor_col =
cols, so the claim's parenthetical is definitional). The grid dimensions are
also unchanged, so the bounds are with respect to the constructed size. -/
theorem C1_cursor_in_bounds (cols rows : Nat) (data : List Nat)
    (hc : 1 ≤ cols) (hr : 1 ≤ rows) :
    (feed_bytes (Terminal.new cols rows, VtParser.new) data).1.grid.cursor_col ≤ cols ∧
    (feed_bytes (Terminal.new cols rows, VtParser.new) data).1.grid.cursor_row < rows ∧
    (feed_bytes (Terminal.new cols rows, VtParser.new) data).1.grid.cols = cols ∧
    (feed_bytes (Terminal.new cols rows, VtParser.new) data).1.grid.rows = rows := by
  obtain ⟨_, _, ⟨g1, g2, g3, g4⟩, _⟩ :=
    feed_bytes_inv (Terminal.new cols rows, VtParser.new) data
      (terminal_new_inv cols rows hc hr)
  exact ⟨g4, g3, g1, g2⟩

/-- Witness for C1 at a concrete input: an 3x2 terminal fed a printable byte
and a cursor-down sequence. -/
theorem C1_cursor_in_bounds_witness :
    (1 ≤ 3 ∧ 1 ≤ 2) ∧
    ((feed_bytes (Terminal.new 3 2, VtParser.new) [65, 27, 91, 66]).1.grid.cursor_col ≤ 3 ∧
     (feed_bytes (Terminal.new 3 2, VtParser.new) [65, 27, 91, 66]).1.grid.cursor_row < 2 ∧
     (feed_bytes (Terminal.new 3 2, VtParser.new) [65, 27, 91, 66]).1.grid.cols = 3 ∧
     (feed_bytes (Terminal.new 3 2, VtParser.new) [65, 27, 91, 66]).1.grid.rows = 2) :=
  ⟨by decide, C1_cursor_in_bounds 3 2 [65, 27, 91, 66] (by decide) (by decide)⟩

/-- Claim C2: feed_bytes processes its input strictly byte by byte through
the shared parser, so for every split bytes = a ++ b, feeding a then b (with
the same parser) leaves the terminal-and-parser pair in a state identical to
feeding the whole sequence at once. -/
theorem C2_chunk_boundary_independence (t : Terminal) (p : VtParser)
    (a b : List Nat) :
    feed_bytes (t, p) (a ++ b) = feed_bytes (feed_bytes (t, p) a) b := by
  unfold feed_bytes
  exact List.foldl_append _ _ _ _

/-- Claim C6, counterexample to the claim as stated: CSI 5;2r (DECSTBM with
top parameter 5 exceeding bottom parameter 2) on a fresh 10x10 terminal
produces scroll_top = 4 and scroll_bottom = 1, violating scroll_top ≤
scroll_bottom; the source performs no top ≤ bottom validation. -/
theorem C6_counterexample :
    ((feed_bytes (Terminal.new 10 10, VtParser.new)
      [27, 91, 53, 59, 50, 114]).1.scroll_top = 4) ∧
    ((feed_bytes (Terminal.new 10 10, VtParser.new)
      [27, 91, 53, 59, 50, 114]).1.scroll_bottom = 1) ∧
    ¬ ((feed_bytes (Terminal.new 10 10, VtParser.new)
      [27, 91, 53, 59, 50, 114]).1.scroll_top ≤
       (feed_bytes (Terminal.new 10 10, VtParser.new)
      [27, 91, 53, 59, 50, 114]).1.scroll_bottom) := by
  refine ⟨by decide, by decide, by decide⟩

/-- Claim C6, amended: after every feed_bytes (including CSI r with arbitrary
parameters such as CSI 5;2r) each scroll bound individually satisfies
0 ≤ scroll_top < rows and 0 ≤ scroll_bottom < rows; the relation
scroll_top ≤ scroll_bottom is not maintained by DECSTBM. -/
theorem C6_scroll_bounds_amended (cols rows : Nat) (data : List Nat)
    (hc : 1 ≤ cols) (hr : 1 ≤ rows) :
    (feed_bytes (Terminal.new cols rows, VtParser.new) data).1.scroll_top < rows ∧
    (feed_bytes (Terminal.new cols rows, VtParser.new) data).1.scroll_bottom < rows := by
  obtain ⟨_, _, _, hst, hsb, _⟩ :=
    feed_bytes_inv (Terminal.new cols rows, VtParser.new) data
      (terminal_new_inv cols rows hc hr)
  exact ⟨hst, hsb⟩

/-- Witness for the amended C6 at the concrete DECSTBM 5;2 input. -/
theorem C6_scroll_bounds_amended_witness :
    (1 ≤ 10 ∧ 1 ≤ 10) ∧
    ((feed_bytes (Terminal.new 10 10, VtParser.new)
       [27, 91, 53, 59, 50, 114]).1.scroll_top < 10 ∧
     (feed_bytes (Terminal.new 10 10, VtParser.new)
       [27, 91, 53, 59, 50, 114]).1.scroll_bottom < 10) :=
  ⟨by decide, C6_scroll_bounds_amended 10 10 [27, 91, 53, 59, 50, 114]
    (by decide) (by decide)⟩

/-- Claim C3: the write-back replies are bit-exact. CSI n with param 5
appends ESC [ 0 n; CSI n with param 6 appends ESC [ row ; col R with 1-based
coordinates; CSI ? n with param 6 appends ESC [ ? row ; col R; CSI c with
param 0 appends ESC [ ? 6 2 ; 2 2 c; and on a fresh 80x24 terminal,
CSI 5;10H followed by CSI 6n leaves exactly the bytes ESC [ 5 ; 10 R in the
write-back buffer. -/
theorem C3_write_back_replies (t : Terminal) (params : List Nat) :
    (paramAt params 0 0 = 5 →
      (t.csi_dispatch 0x6e params []).write_back =
        t.write_back ++ [0x1b, 0x5b, 0x30, 0x6e]) ∧
    (paramAt params 0 0 = 6 →
      (t.csi_dispatch 0x6e params []).write_back = t.write_back ++
        [0x1b, 0x5b] ++ decBytes (t.grid.cursor_row + 1) ++ [0x3b] ++
        decBytes (t.grid.cursor_col + 1) ++ [0x52]) ∧
    (paramAt params 0 0 = 6 →
      (t.csi_dispatch 0x6e params [0x3f]).write_back = t.write_back ++
        [0x1b, 0x5b, 0x3f] ++ decBytes (t.grid.cursor_row + 1) ++ [0x3b] ++
        decBytes (t.grid.cursor_col + 1) ++ [0x52]) ∧
    (paramAt params 0 0 = 0 →
      (t.csi_dispatch 0x63 params []).write_back = t.write_back ++
        [0x1b, 0x5b, 0x3f, 0x36, 0x32, 0x3b, 0x32, 0x32, 0x63]) ∧
    ((feed_bytes (Terminal.new 80 24, VtParser.new)
        [27, 91, 53, 59, 49, 48, 72, 27, 91, 54, 110]).1.write_back =
      [27, 91, 53, 59, 49, 48, 82]) := by
  refine ⟨?_, ?_, ?_, ?_, by decide⟩
  · intro h
    simp [Terminal.csi_dispatch, h]
  · intro h
    simp [Terminal.csi_dispatch, h]
  · intro h
    simp [Terminal.csi_dispatch, h]
  · intro h
    simp [Terminal.csi_dispatch, h]

/-- Witness for C3 with each reply hypothesis discharged on a fresh 5x5
terminal: param lists [5], [6] and [0] as produced by the parser. -/
theorem C3_write_back_replies_witness :
    paramAt [5] 0 0 = 5 ∧ paramAt [6] 0 0 = 6 ∧ paramAt [0] 0 0 = 0 ∧
    (((Terminal.new 5 5).csi_dispatch 0x6e [5] []).write_back =
      [0x1b, 0x5b, 0x30, 0x6e]) ∧
    (((Terminal.new 5 5).csi_dispatch 0x6e [6] []).write_back =
      [0x1b, 0x5b] ++ decBytes 1 ++ [0x3b] ++ decBytes 1 ++ [0x52]) ∧
    (((Terminal.new 5 5).csi_dispatch 0x6e [6] [0x3f]).write_back =
      [0x1b, 0x5b, 0x3f] ++ decBytes 1 ++ [0x3b] ++ decBytes 1 ++ [0x52]) ∧
    (((Terminal.new 5 5).csi_dispatch 0x63 [0] []).write_back =
      [0x1b, 0x5b, 0x3f, 0x36, 0x32, 0x3b, 0x32, 0x32, 0x63]) :=
  ⟨by decide, by decide, by decide,
   (C3_write_back_replies (Terminal.new 5 5) [5]).1 (by decide),
   (C3_write_back_replies (Terminal.new 5 5) [6]).2.1 (by decide),
   (C3_write_back_replies (Terminal.new 5 5) [6]).2.2.1 (by decide),
   (C3_write_back_replies (Terminal.new 5 5) [0]).2.2.2.1 (by decide)⟩

/-- Claim C4, counterexample: with the decoder mid-sequence after the lead
0xC3, feeding the ASCII byte 0x41 (a valid one-byte lead, explicitly covered
by the claim) yields U+FFFD and resets the decoder to the idle state without
reprocessing 0x41: the scalar A, which a restarted one-byte sequence would
produce (as the fresh-decoder feed shows), is never emitted. -/
theorem C4_counterexample :
    (((Utf8Decoder.new.feed 0xC3).2.feed 0x41).1 = some replacementChar) ∧
    (((Utf8Decoder.new.feed 0xC3).2.feed 0x41).2 = Utf8Decoder.new) ∧
    ((Utf8Decoder.new.feed 0x41).1 = some 'A') ∧
    (((Utf8Decoder.new.feed 0xC3).2.feed 0x41).1 ≠ some 'A') := by
  refine ⟨by decide, by decide, by decide, by decide⟩

/-- Claim C4, amended: on an invalid continuation the decoder emits U+FFFD
and resets; the offending byte is reprocessed as the start of a new sequence
only when it is at least 0x80 (the state then equals a fresh decoder fed
that byte); ASCII offending bytes below 0x80 are dropped (the state is a
fresh idle decoder and the byte's scalar is not emitted). -/
theorem C4_invalid_continuation_amended (d : Utf8Decoder) (b : Nat)
    (hp : d.is_pending = true) (hc : ¬ b &&& 0xC0 = 0x80) :
    (d.feed b).1 = some replacementChar ∧
    (d.feed b).2 =
      (if b ≥ 0x80 then (Utf8Decoder.feedStart b).2 else Utf8Decoder.new) := by
  have hexp : ¬ d.expected = 0 := by
    unfold Utf8Decoder.is_pending at hp
    simp at hp
    omega
  unfold Utf8Decoder.feed
  rw [if_neg (by simpa using hexp), if_neg (by simpa using hc)]
  split <;> exact ⟨rfl, rfl⟩

/-- Witness for C4 amended: the decoder pending on 0xC3 fed the invalid
continuation 0x41. -/
theorem C4_invalid_continuation_amended_witness :
    ((Utf8Decoder.new.feed 0xC3).2.is_pending = true) ∧
    (¬ (0x41 : Nat) &&& 0xC0 = 0x80) ∧
    ((((Utf8Decoder.new.feed 0xC3).2).feed 0x41).1 = some replacementChar ∧
     (((Utf8Decoder.new.feed 0xC3).2).feed 0x41).2 =
       (if (0x41 : Nat) ≥ 0x80 then (Utf8Decoder.feedStart 0x41).2
        else Utf8Decoder.new)) :=
  ⟨by decide, by decide,
   C4_invalid_continuation_amended (Utf8Decoder.new.feed 0xC3).2 0x41
     (by decide) (by decide)⟩

/-- Claim C5, counterexample: on a 10x10 terminal with scroll region rows
3..7 (scroll_top = 2) and the cursor at (5,5), CSI ? 6 h sets origin mode
but does not home the cursor to (scroll_top, 0) = (2, 0). -/
theorem C5_counterexample :
    ((feed_bytes (Terminal.new 10 10, VtParser.new)
        [27, 91, 51, 59, 55, 114, 27, 91, 54, 59, 54, 72, 27, 91, 63, 54, 104]).1.origin_mode
      = true) ∧
    ((feed_bytes (Terminal.new 10 10, VtParser.new)
        [27, 91, 51, 59, 55, 114, 27, 91, 54, 59, 54, 72, 27, 91, 63, 54, 104]).1.scroll_top
      = 2) ∧
    ((feed_bytes (Terminal.new 10 10, VtParser.new)
        [27, 91, 51, 59, 55, 114, 27, 91, 54, 59, 54, 72, 27, 91, 63, 54, 104]).1.grid.cursor_row
      = 5) ∧
    ((feed_bytes (Terminal.new 10 10, VtParser.new)
        [27, 91, 51, 59, 55, 114, 27, 91, 54, 59, 54, 72, 27, 91, 63, 54, 104]).1.grid.cursor_col
      = 5) := by
  refine ⟨by decide, by decide, by decide, by decide⟩

/-- Claim C5, amended: CSI ? 6 h / l only toggles the origin-mode flag; the
cursor and all other terminal state are left unchanged (no homing to
(scroll_top, 0) is performed on set). -/
theorem C5_decom_sets_flag_only (t : Terminal) (enable : Bool) :
    t.set_dec_mode [6] enable = { t with origin_mode := enable } := rfl

/-- Claim C10: Terminal::resize resizes only the active grid; the alt_grid
slot is untouched. Concretely: on a fresh 80x24 terminal, after entering the
alt screen (CSI ? 1049 h), resizing to 100x50 and leaving the alt screen
(CSI ? 1049 l), the visible grid still has the pre-resize dimensions 80x24
while the discarded alt-screen grid had been resized to 100x50. -/
theorem C10_resize_leaves_alt_grid (t : Terminal) (cols rows : Nat) :
    ((t.resize cols rows).alt_grid = t.alt_grid) ∧
    (let tp1 := feed_bytes (Terminal.new 80 24, VtParser.new)
        [27, 91, 63, 49, 48, 52, 57, 104]
     let t2 := tp1.1.resize 100 50
     let tp3 := feed_bytes (t2, tp1.2) [27, 91, 63, 49, 48, 52, 57, 108]
     tp3.1.grid.cols = 80 ∧ tp3.1.grid.rows = 24 ∧ t2.grid.cols = 100) :=
  ⟨rfl, by decide⟩

/-- ASCII byte sequences decode losslessly: from_utf8_lossy on bytes below
0x80 is the identity (as characters). -/
theorem utf8LossyF_ascii (fuel : Nat) :
    ∀ (s : List Char), s.length ≤ fuel → (∀ c ∈ s, c.toNat < 0x80) →
      utf8LossyF fuel (asciiBytes s) = s := by
  induction fuel with
  | zero =>
    intro s hf _
    cases s with
    | nil => rfl
    | cons c cs => simp at hf
  | succ fuel ih =>
    intro s hf h
    cases s with
    | nil => rfl
    | cons c cs =>
      have hc : c.toNat < 0x80 := h c (by simp)
      show utf8LossyF (fuel + 1) (c.toNat :: asciiBytes cs) = c :: cs
      unfold utf8LossyF
      rw [if_pos hc, Char.ofNat_toNat]
      exact congrArg (c :: ·)
        (ih cs (by simpa using hf) (fun x hx => h x (by simp [hx])))

theorem utf8Lossy_ascii (s : List Char) (h : ∀ c ∈ s, c.toNat < 0x80) :
    utf8Lossy (asciiBytes s) = s := by
  unfold utf8Lossy
  exact utf8LossyF_ascii _ s (by simp [asciiBytes]) h

/-- split_once at the first separator: when the left part has none, the
split is exact. -/
theorem splitOnce_append (target data : List Char) (h : ¬ ';' ∈ target) :
    splitOnce (target ++ ';' :: data) ';' = some (target, data) := by
  induction target with
  | nil => simp [splitOnce]
  | cons c cs ih =>
    have hc : ¬ c = ';' := fun e => h (by simp [e])
    have hcs : ¬ ';' ∈ cs := fun e => h (by simp [e])
    simp only [List.cons_append, splitOnce, if_neg hc, List.append_eq]
    rw [ih hcs]
    rfl

/-- Claim C7, counterexample: for the query payload 52;c;? the claim says
osc52_data is not written; the handler writes it anyway, storing the raw
payload string (no base64 decoding either). -/
theorem C7_counterexample :
    (((Terminal.new 4 2).osc_dispatch
        (asciiBytes ['5', '2', ';', 'c', ';', '?'])).osc52_data =
      some ['5', '2', ';', 'c', ';', '?']) ∧
    ¬ (((Terminal.new 4 2).osc_dispatch
        (asciiBytes ['5', '2', ';', 'c', ';', '?'])).osc52_data = none) := by
  refine ⟨by decide, by decide⟩

/-- Claim C7, amended: osc_dispatch stores the raw payload (selector
included) in osc52_data for every 52;… payload, queries included, and
performs no base64 decoding; the query/decoding behaviour described by the
claim is implemented by the separate helper clipboard::decode_osc52_set,
which is never applied to osc52_data: for payload 52;TARGET;DATA it returns
none when DATA = "?" and the base64 decoding of DATA otherwise. -/
theorem C7_osc52_amended (t : Terminal) (rest : List Char)
    (hascii : ∀ c ∈ rest, c.toNat < 0x80) :
    ((t.osc_dispatch (asciiBytes ('5' :: '2' :: ';' :: rest))).osc52_data =
      some ('5' :: '2' :: ';' :: rest)) ∧
    (∀ target data : List Char, ¬ ';' ∈ target →
      decode_osc52_set ('5' :: '2' :: ';' :: (target ++ ';' :: data)) =
        if data = ['?'] then none else base64_decode data) := by
  constructor
  · have hs : utf8Lossy (asciiBytes ('5' :: '2' :: ';' :: rest)) =
        '5' :: '2' :: ';' :: rest := by
      refine utf8Lossy_ascii _ ?_
      intro c hc
      simp at hc
      rcases hc with rfl | rfl | rfl | h
      · decide
      · decide
      · decide
      · exact hascii c h
    unfold Terminal.osc_dispatch
    rw [hs]
    simp [Terminal.oscTitle, Terminal.oscCwd, Terminal.osc133, Terminal.osc52,
      chopPre, List.isPrefixOf]
  · intro target data hsep
    have h1 : chopPre ['5', '2', ';'] ('5' :: '2' :: ';' :: (target ++ ';' :: data))
        = some (target ++ ';' :: data) := rfl
    unfold decode_osc52_set
    simp only [h1, splitOnce_append target data hsep]

/-- Witness for the amended C7 at the payload 52;c;aGVsbG8= (the repository
test vector): raw storage plus helper decoding to "hello". -/
theorem C7_osc52_amended_witness :
    (∀ c ∈ ['c', ';', 'a', 'G', 'V', 's', 'b', 'G', '8', '='], c.toNat < 0x80) ∧
    (((Terminal.new 4 2).osc_dispatch (asciiBytes
        ('5' :: '2' :: ';' :: ['c', ';', 'a', 'G', 'V', 's', 'b', 'G', '8', '=']))).osc52_data =
      some ('5' :: '2' :: ';' :: ['c', ';', 'a', 'G', 'V', 's', 'b', 'G', '8', '='])) ∧
    (decode_osc52_set ('5' :: '2' :: ';' ::
        (['c'] ++ ';' :: ['a', 'G', 'V', 's', 'b', 'G', '8', '='])) =
      if ['a', 'G', 'V', 's', 'b', 'G', '8', '='] = ['?'] then none
      else base64_decode ['a', 'G', 'V', 's', 'b', 'G', '8', '=']) :=
  ⟨by decide,
   (C7_osc52_amended (Terminal.new 4 2)
     ['c', ';', 'a', 'G', 'V', 's', 'b', 'G', '8', '='] (by decide)).1,
   (C7_osc52_amended (Terminal.new 4 2)
     ['c', ';', 'a', 'G', 'V', 's', 'b', 'G', '8', '='] (by decide)).2
     ['c'] ['a', 'G', 'V', 's', 'b', 'G', '8', '='] (by decide)⟩

/-- On a nondecreasing list, the first reverse-order hit below r is the
maximum element below r, and one exists whenever some element is below r. -/
theorem find_rev_sorted (l : List Nat) (r : Nat)
    (hs : l.Pairwise (· ≤ ·)) :
    (∀ m, l.reverse.find? (fun q => q < r) = some m →
      m ∈ l ∧ m < r ∧ ∀ q ∈ l, q < r → q ≤ m) ∧
    ((∃ q ∈ l, q < r) → ∃ m, l.reverse.find? (fun q => q < r) = some m) := by
  induction l using List.reverseRecOn with
  | nil => exact ⟨by simp, by simp⟩
  | append_singleton xs x ih =>
    obtain ⟨hxs, _, hbound⟩ := List.pairwise_append.1 hs
    have hb : ∀ q ∈ xs, q ≤ x := fun q hq => hbound q hq x (by simp)
    have hrev : (xs ++ [x]).reverse = x :: xs.reverse := by simp
    by_cases hlt : x < r
    · rw [hrev]
      constructor
      · intro m hm
        rw [List.find?_cons_of_pos _ (by simpa using hlt)] at hm
        obtain rfl : x = m := by simpa using hm
        refine ⟨by simp, hlt, ?_⟩
        intro q hq _
        rcases List.mem_append.1 hq with h | h
        · exact hb q h
        · simp at h; omega
      · intro _
        exact ⟨x, by rw [List.find?_cons_of_pos _ (by simpa using hlt)]⟩
    · rw [hrev]
      obtain ⟨ih1, ih2⟩ := ih hxs
      constructor
      · intro m hm
        rw [List.find?_cons_of_neg _ (by simpa using hlt)] at hm
        obtain ⟨m1, m2, m3⟩ := ih1 m hm
        refine ⟨by simp [m1], m2, ?_⟩
        intro q hq hqr
        rcases List.mem_append.1 hq with h | h
        · exact m3 q h hqr
        · simp at h; omega
      · intro ⟨q, hq, hqr⟩
        rcases List.mem_append.1 hq with h | h
        · obtain ⟨m, hm⟩ := ih2 ⟨q, h, hqr⟩
          exact ⟨m, by rw [List.find?_cons_of_neg _ (by simpa using hlt)]; exact hm⟩
        · simp at h; omega

/-- On a nondecreasing list, the first forward hit above r is the minimum
element above r, and one exists whenever some element is above r. -/
theorem find_fwd_sorted (l : List Nat) (r : Nat)
    (hs : l.Pairwise (· ≤ ·)) :
    (∀ m, l.find? (fun q => r < q) = some m →
      m ∈ l ∧ r < m ∧ ∀ q ∈ l, r < q → m ≤ q) ∧
    ((∃ q ∈ l, r < q) → ∃ m, l.find? (fun q => r < q) = some m) := by
  induction l with
  | nil => exact ⟨by simp, by simp⟩
  | cons x xs ih =>
    have hhead : ∀ q ∈ xs, x ≤ q := (List.pairwise_cons.1 hs).1
    have hxs := (List.pairwise_cons.1 hs).2
    by_cases hlt : r < x
    · constructor
      · intro m hm
        rw [List.find?_cons_of_pos _ (by simpa using hlt)] at hm
        obtain rfl : x = m := by simpa using hm
        refine ⟨by simp, hlt, ?_⟩
        intro q hq _
        rcases List.mem_cons.1 hq with h | h
        · omega
        · exact hhead q h
      · intro _
        exact ⟨x, by rw [List.find?_cons_of_pos _ (by simpa using hlt)]⟩
    · obtain ⟨ih1, ih2⟩ := ih hxs
      constructor
      · intro m hm
        rw [List.find?_cons_of_neg _ (by simpa using hlt)] at hm
        obtain ⟨m1, m2, m3⟩ := ih1 m hm
        refine ⟨by simp [m1], m2, ?_⟩
        intro q hq hqr
        rcases List.mem_cons.1 hq with h | h
        · omega
        · exact m3 q h hqr
      · intro ⟨q, hq, hqr⟩
        rcases List.mem_cons.1 hq with h | h
        · omega
        · obtain ⟨m, hm⟩ := ih2 ⟨q, h, hqr⟩
          exact ⟨m, by rw [List.find?_cons_of_neg _ (by simpa using hlt)]; exact hm⟩

/-- prev_prompt expressed over the list of recorded prompt rows. -/
theorem prev_prompt_as_rows (si : ShellIntegration) (r : Nat) :
    si.prev_prompt r =
      (si.commands.map (fun c => c.prompt_row)).reverse.find? (fun q => q < r) := by
  unfold ShellIntegration.prev_prompt
  rw [List.reverse_map, List.find?_map]
  rfl

/-- next_prompt expressed over the list of recorded prompt rows. -/
theorem next_prompt_as_rows (si : ShellIntegration) (r : Nat) :
    si.next_prompt r =
      (si.commands.map (fun c => c.prompt_row)).find? (fun q => r < q) := by
  unfold ShellIntegration.next_prompt
  rw [List.find?_map]
  rfl

/-- Claim C8, counterexample: with records appended out of row order
(prompt rows 5, 20, 10), prev_prompt 30 returns 10 (the most recently
appended record below 30) rather than the nearest recorded prompt row 20,
and next_prompt 6 returns 20 (the earliest appended record above 6) rather
than the nearest recorded prompt row 10. -/
theorem C8_counterexample :
    let s1 := ShellIntegration.new.handle_osc133 ['A'] 5
    let s2 := s1.handle_osc133 ['D'] 6
    let s3 := s2.handle_osc133 ['A'] 20
    let s4 := s3.handle_osc133 ['D'] 21
    let s5 := s4.handle_osc133 ['A'] 10
    let si := s5.handle_osc133 ['D'] 11
    (si.commands.map (fun c => c.prompt_row) = [5, 20, 10]) ∧
    si.prev_prompt 30 = some 10 ∧ ¬ si.prev_prompt 30 = some 20 ∧
    si.next_prompt 6 = some 20 ∧ ¬ si.next_prompt 6 = some 10 := by
  decide

/-- Claim C8, amended: prev_prompt r returns the prompt_row of the most
recently appended record with prompt_row < r, and next_prompt r that of the
earliest appended record with prompt_row > r; whenever the recorded prompt
rows are nondecreasing in append order (the normal case of a scrolling
session), these coincide with the claim's nearest recorded prompt row
strictly below, respectively above, r. -/
theorem C8_nearest_prompt_amended (si : ShellIntegration) (r : Nat)
    (hs : (si.commands.map (fun c => c.prompt_row)).Pairwise (· ≤ ·)) :
    (∀ m, si.prev_prompt r = some m →
      m ∈ si.commands.map (fun c => c.prompt_row) ∧ m < r ∧
      ∀ q ∈ si.commands.map (fun c => c.prompt_row), q < r → q ≤ m) ∧
    ((∃ q ∈ si.commands.map (fun c => c.prompt_row), q < r) →
      ∃ m, si.prev_prompt r = some m) ∧
    (∀ m, si.next_prompt r = some m →
      m ∈ si.commands.map (fun c => c.prompt_row) ∧ r < m ∧
      ∀ q ∈ si.commands.map (fun c => c.prompt_row), r < q → m ≤ q) ∧
    ((∃ q ∈ si.commands.map (fun c => c.prompt_row), r < q) →
      ∃ m, si.next_prompt r = some m) := by
  obtain ⟨hr1, hr2⟩ := find_rev_sorted (si.commands.map (fun c => c.prompt_row)) r hs
  obtain ⟨hf1, hf2⟩ := find_fwd_sorted (si.commands.map (fun c => c.prompt_row)) r hs
  refine ⟨?_, ?_, ?_, ?_⟩
  · intro m hm
    exact hr1 m (by rw [← prev_prompt_as_rows]; exact hm)
  · intro hex
    obtain ⟨m, hm⟩ := hr2 hex
    exact ⟨m, by rw [prev_prompt_as_rows]; exact hm⟩
  · intro m hm
    exact hf1 m (by rw [← next_prompt_as_rows]; exact hm)
  · intro hex
    obtain ⟨m, hm⟩ := hf2 hex
    exact ⟨m, by rw [next_prompt_as_rows]; exact hm⟩

/-- Witness for the amended C8 on an in-order history with prompt rows
0, 10, 20 (the repository's navigation test): every recorded prompt row
below 25 is at most prev_prompt 25 = 20. -/
theorem C8_nearest_prompt_amended_witness :
    let s1 := ShellIntegration.new.handle_osc133 ['A'] 0
    let s2 := s1.handle_osc133 ['D'] 5
    let s3 := s2.handle_osc133 ['A'] 10
    let s4 := s3.handle_osc133 ['D'] 15
    let s5 := s4.handle_osc133 ['A'] 20
    let si := s5.handle_osc133 ['D'] 25
    ((si.commands.map (fun c => c.prompt_row)).Pairwise (· ≤ ·)) ∧
    (si.prev_prompt 25 = some 20) ∧
    (∀ q ∈ si.commands.map (fun c => c.prompt_row), q < 25 → q ≤ 20) := by
  refine ⟨by decide, by decide, ?_⟩
  exact ((C8_nearest_prompt_amended _ 25 (by decide)).1 20 (by decide)).2.2

/-- One byte fed while the parser is inside an OSC string (and the byte is
neither a terminator nor CAN/SUB/ESC) only appends to the parser's payload
accumulator; the terminal is untouched. -/
theorem feedByte_osc (t : Terminal) (p : VtParser) (b : Nat)
    (hst : p.state = .OscString)
    (h7 : ¬ b = 0x07) (h9c : ¬ b = 0x9c) (h18 : ¬ b = 0x18) (h1a : ¬ b = 0x1a)
    (h1b : ¬ b = 0x1b) :
    feedByte (t, p) b = (t, { p with osc_data := p.osc_data ++ [b] }) := by
  have hcond : (b < 0x80 ∨ t.utf8.is_pending = true ∨ b ≥ 0x80) := by
    rcases Nat.lt_or_ge b 0x80 with h | h
    · exact Or.inl h
    · exact Or.inr (Or.inr h)
  have hosc : p.osc_string b = (Action.NoAction, { p with osc_data := p.osc_data ++ [b] }) := by
    unfold VtParser.osc_string
    rw [if_neg h7, if_neg h9c]
  have hadv : p.advance b = (Action.NoAction, { p with osc_data := p.osc_data ++ [b] }) := by
    unfold VtParser.advance
    rw [if_neg (by omega), if_neg h1b, hst]
    dsimp only
    rw [hosc, hst]
  unfold feedByte
  dsimp only
  rw [if_pos hcond, hadv]
  rfl

/-- Feeding any terminator-free byte sequence while inside an OSC string
accumulates it verbatim into the payload, leaving the terminal unchanged. -/
theorem feed_bytes_osc (t : Terminal) (p : VtParser) (data : List Nat)
    (hst : p.state = .OscString)
    (hb : ∀ b ∈ data, ¬ b = 0x07 ∧ ¬ b = 0x9c ∧ ¬ b = 0x18 ∧ ¬ b = 0x1a ∧
      ¬ b = 0x1b) :
    feed_bytes (t, p) data = (t, { p with osc_data := p.osc_data ++ data }) := by
  induction data generalizing p with
  | nil =>
    show (t, p) = (t, { p with osc_data := p.osc_data ++ [] })
    simp
  | cons b rest ih =>
    obtain ⟨h7, h9c, h18, h1a, h1b⟩ := hb b (by simp)
    show feed_bytes (feedByte (t, p) b) rest = _
    rw [feedByte_osc t p b hst h7 h9c h18 h1a h1b]
    rw [ih { p with osc_data := p.osc_data ++ [b] } hst
      (fun x hx => hb x (by simp [hx]))]
    simp

/-- Feeding BEL while inside an OSC string dispatches the accumulated payload
to osc_dispatch and returns the parser to ground. -/
theorem feedByte_osc_bel (t : Terminal) (p : VtParser)
    (hst : p.state = .OscString) :
    feedByte (t, p) 7 = (t.osc_dispatch p.osc_data, { p with state := PState.Ground }) := by
  have hcond : (7 < 0x80 ∨ t.utf8.is_pending = true ∨ 7 ≥ 0x80) := Or.inl (by omega)
  have hadv : p.advance 7 =
      (Action.OscDispatch p.osc_data, { p with state := PState.Ground }) := by
    unfold VtParser.advance
    rw [if_neg (by omega), if_neg (by omega), hst]
    dsimp only
    unfold VtParser.osc_string
    rw [if_pos rfl]
  unfold feedByte
  dsimp only
  rw [if_pos hcond, hadv]
  rfl

/-- Claim C9 (code bug): the spec's title-length cap is not enforced. The
helper security::sanitize_osc does cap at 4096 characters — but it has no
callers: osc_dispatch stores the title verbatim, so the OSC payload
0;AAAA… with 4097 As yields a stored title of length 4097 > 4096. -/
theorem C9_title_cap_missing :
    ((((feed_bytes (Terminal.new 2 2, VtParser.new)
        (([27, 93] ++ (48 :: 59 :: List.replicate 4097 65)) ++ [7])).1.title).length)
      = 4097) ∧
    (∀ data : List Nat, (sanitize_osc data).length ≤ 4096) := by
  constructor
  · have hsplit : feed_bytes (Terminal.new 2 2, VtParser.new)
        (([27, 93] ++ (48 :: 59 :: List.replicate 4097 65)) ++ [7]) =
        feed_bytes (feed_bytes (feed_bytes (Terminal.new 2 2, VtParser.new)
          [27, 93]) (48 :: 59 :: List.replicate 4097 65)) [7] := by
      unfold feed_bytes
      rw [List.foldl_append, List.foldl_append]
    rw [hsplit]
    have h0 : feed_bytes (Terminal.new 2 2, VtParser.new) [27, 93] =
        (Terminal.new 2 2, { VtParser.new with state := PState.OscString }) := rfl
    rw [h0]
    rw [feed_bytes_osc (Terminal.new 2 2)
      { VtParser.new with state := PState.OscString }
      (48 :: 59 :: List.replicate 4097 65) rfl ?hb]
    case hb =>
      intro b hbm
      have hb65 : b = 48 ∨ b = 59 ∨ b = 65 := by
        rcases List.mem_cons.mp hbm with rfl | hbm1
        · exact Or.inl rfl
        rcases List.mem_cons.mp hbm1 with rfl | hbm2
        · exact Or.inr (Or.inl rfl)
        · exact Or.inr (Or.inr (List.eq_of_mem_replicate hbm2))
      rcases hb65 with rfl | rfl | rfl <;>
        exact ⟨by omega, by omega, by omega, by omega, by omega⟩
    have hsingle : ∀ tp : Terminal × VtParser, feed_bytes tp [7] = feedByte tp 7 :=
      fun tp => rfl
    rw [hsingle, feedByte_osc_bel _ _ rfl]
    dsimp only
    have hdata : (VtParser.new.osc_data ++ (48 :: 59 :: List.replicate 4097 65)) =
        asciiBytes ('0' :: ';' :: List.replicate 4097 'A') := by
      show [] ++ (48 :: 59 :: List.replicate 4097 65) = _
      rw [List.nil_append]
      show 48 :: 59 :: List.replicate 4097 65 =
        List.map Char.toNat ('0' :: ';' :: List.replicate 4097 'A')
      rw [List.map_cons, List.map_cons, List.map_replicate,
        show Char.toNat '0' = 48 from rfl, show Char.toNat ';' = 59 from rfl,
        show Char.toNat 'A' = 65 from rfl]
    rw [hdata]
    have hS : utf8Lossy (asciiBytes ('0' :: ';' :: List.replicate 4097 'A')) =
        '0' :: ';' :: List.replicate 4097 'A' := by
      refine utf8Lossy_ascii _ ?_
      intro c hc
      have hcc : c = '0' ∨ c = ';' ∨ c = 'A' := by
        rcases List.mem_cons.mp hc with rfl | hc1
        · exact Or.inl rfl
        rcases List.mem_cons.mp hc1 with rfl | hc2
        · exact Or.inr (Or.inl rfl)
        · exact Or.inr (Or.inr (List.eq_of_mem_replicate hc2))
      rcases hcc with rfl | rfl | rfl <;> decide
    unfold Terminal.osc_dispatch
    rw [hS]
    show (List.replicate 4097 'A').length = 4097
    exact List.length_replicate 4097 'A'
  · intro data
    unfold sanitize_osc
    exact le_trans (List.length_take_le _ _) (le_refl _)

end TermCore
